import Mathlib

set_option maxRecDepth 8192

/-!
# Verification of the spreadsheet normalization engine

A shallow embedding of the cleaning pipeline of `clean_for_snowflake.py`
(header normalisation, noise-row filtering, context fill-down, type
profiling, SQL sanitisation and the per-sheet orchestration), together
with theorems checking the specification's claims against it.

Modelling conventions:
* a cell of a raw sheet is `Option String` (`none` models a pandas `NA`);
* Python `float` values parsed from decimal strings are represented
  exactly as `m * 10 ^ e` with `m : Int`, `e : Int` (no binary rounding);
  ratio thresholds such as `>= 0.7` are compared exactly over the
  rationals by integer cross-multiplication;
* string handling is modelled at ASCII level (`Char.toLower`,
  `Char.isAlphanum` are ASCII, matching the inputs exercised here).
-/

/-- The cell of a raw grid: `none` models a pandas missing value (`NA`). -/
abbrev Cell := Option String

/-- A row of cells. -/
abbrev Row := List Cell

/-- A row together with its pandas index label. -/
abbrev LRow := Nat × Row

/-- Python whitespace recognised by `str.strip` (ASCII range). -/
def isPyWs (c : Char) : Bool :=
  c = ' ' || c = '\t' || c = '\n' || c = '\r' || c = '\x0b' || c = '\x0c'

/-- `str.strip()` on a character list. -/
def pyStripList (l : List Char) : List Char :=
  ((l.dropWhile isPyWs).reverse.dropWhile isPyWs).reverse

/-- Python `str.strip()`. -/
def pyStrip (s : String) : String := ⟨pyStripList s.data⟩

/-- Python `str.lower()` (ASCII). -/
def pyLower (s : String) : String := ⟨s.data.map Char.toLower⟩

/-- `pandas.Series.astype(str)` on one cell: a missing value prints as `"nan"`. -/
def strOfCell : Cell → String
  | none => "nan"
  | some s => s

/-- Substring test on character lists (Python's `needle in hay`). -/
def listContainsSub (needle : List Char) : List Char → Bool
  | [] => needle.isEmpty
  | c :: rest => needle.isPrefixOf (c :: rest) || listContainsSub needle rest

/-- Python's `needle in hay` on strings. -/
def pyContains (needle hay : String) : Bool :=
  listContainsSub needle.data hay.data

/-- `a / b ≥ c / d` decided exactly over ℚ for `b, d > 0`; this is how the
source's floating-point threshold tests (e.g. `ratio >= 0.7`) are modelled. -/
def ratGe (a b c d : Nat) : Bool := d * a ≥ c * b

/-- `a / b < c / d` decided exactly over ℚ for `b, d > 0`. -/
def ratLt (a b c d : Nat) : Bool := d * a < c * b

/-! ## Python numeric literal parsing (`int(...)` / `float(...)`) -/

/-- Greedy scan of a digit group in which single underscores may separate
digits (Python numeric literals); returns the digits read (underscores
removed) and the rest of the input. -/
def digitsGo (acc : List Char) : List Char → (List Char × List Char)
  | [] => (acc, [])
  | '_' :: c :: rest =>
      if c.isDigit then digitsGo (acc ++ [c]) rest else (acc, '_' :: c :: rest)
  | c :: rest =>
      if c.isDigit then digitsGo (acc ++ [c]) rest else (acc, c :: rest)

/-- Reads a nonempty underscore-separated digit group, or fails. -/
def takeDigitsU : List Char → Option (List Char × List Char)
  | c :: rest => if c.isDigit then some (digitsGo [c] rest) else none
  | [] => none

/-- Numeric value of a digit list. -/
def digitsVal (ds : List Char) : Nat :=
  ds.foldl (fun a c => a * 10 + (c.toNat - '0'.toNat)) 0

/-- Optional leading sign; returns `true` for `-`. -/
def parseSign : List Char → (Bool × List Char)
  | '+' :: rest => (false, rest)
  | '-' :: rest => (true, rest)
  | l => (false, l)

/-- The result of Python `float(...)`: a finite value `m * 10 ^ e` kept
exactly, or an infinity / NaN. -/
inductive PyFloat where
  | finite (m : Int) (e : Int)
  | infinite
  | nanv
deriving DecidableEq

/-- Value of the optional exponent suffix `([eE][+-]?digits)?`; fails if the
input is nonempty but not a well-formed exponent. Returns the signed
exponent. -/
def parseExpSuffix : List Char → Option Int
  | [] => some 0
  | c :: rest =>
      if c = 'e' ∨ c = 'E' then
        let (neg, r2) := parseSign rest
        match takeDigitsU r2 with
        | some (ds, []) =>
            some (if neg then -(digitsVal ds : Int) else (digitsVal ds : Int))
        | _ => none
      else none

/-- Parses the unsigned body of a Python float literal
(`digits [. digits] | . digits`, optional exponent), returning the exact
value as `(mantissa, power of ten)`. -/
def parseFloatBody (l : List Char) : Option (Int × Int) :=
  match takeDigitsU l with
  | some (ip, rest) =>
      match rest with
      | '.' :: rest2 =>
          match takeDigitsU rest2 with
          | some (fp, rest3) =>
              (parseExpSuffix rest3).map fun ex =>
                ((digitsVal (ip ++ fp) : Int), ex - (fp.length : Int))
          | none =>
              (parseExpSuffix rest2).map fun ex => ((digitsVal ip : Int), ex)
      | _ => (parseExpSuffix rest).map fun ex => ((digitsVal ip : Int), ex)
  | none =>
      match l with
      | '.' :: rest2 =>
          match takeDigitsU rest2 with
          | some (fp, rest3) =>
              (parseExpSuffix rest3).map fun ex =>
                ((digitsVal fp : Int), ex - (fp.length : Int))
          | none => none
      | _ => none

/-- Python `float(s)`: strips whitespace, optional sign, then either
`inf`/`infinity`/`nan` (case-insensitive) or a decimal literal. The finite
result is the literal's exact rational value (CPython's rounding to binary
and overflow to infinity are idealised away). -/
def pyFloatParse (s : String) : Option PyFloat :=
  let l := pyStripList s.data
  let (neg, r) := parseSign l
  let low := r.map Char.toLower
  if low = "inf".data ∨ low = "infinity".data then some .infinite
  else if low = "nan".data then some .nanv
  else
    match parseFloatBody r with
    | some (m, e) => some (.finite (if neg then -m else m) e)
    | none => none

/-- Whether Python `int(s)` succeeds (base 10). -/
def pyIntOk (s : String) : Bool :=
  let l := pyStripList s.data
  let (_, r) := parseSign l
  match takeDigitsU r with
  | some (_, []) => true
  | _ => false

/-- Removal of `','`, `'$'` and `'%'`, as in
`val.replace(',', '').replace('$', '').replace('%', '')`. -/
def removeFmtChars (s : String) : String :=
  ⟨s.data.filter (fun c => c ≠ ',' && c ≠ '$' && c ≠ '%')⟩

/-- Whether `float(val_str.replace(',','').replace('$','').replace('%',''))`
succeeds, the numeric test used by header-depth and total-row detection. -/
def isNumericStr (t : String) : Bool :=
  (pyFloatParse (removeFmtChars t)).isSome

/-! ## Identifier normalisation (`normalise_headers`) -/

/-- The Snowflake reserved words of `SQL_RESERVED_WORDS`. -/
def SQL_RESERVED_WORDS : List String :=
  ["all", "alter", "and", "any", "as", "asc", "between", "by", "case", "cast",
   "check", "column", "connect", "constraint", "create", "cross", "current",
   "current_date", "current_time", "current_timestamp", "database", "delete",
   "desc", "distinct", "drop", "else", "end", "exists", "false", "following",
   "for", "from", "full", "grant", "group", "having", "in", "increment",
   "inner", "insert", "intersect", "into", "is", "join", "lateral", "left",
   "like", "localtime", "localtimestamp", "minus", "natural", "not", "null",
   "of", "on", "or", "order", "organization", "outer", "over", "partition",
   "preceding", "primary", "range", "references", "revoke", "right", "rlike",
   "row", "rows", "sample", "select", "set", "some", "start", "table",
   "tablesample", "then", "to", "trigger", "true", "union", "unique",
   "update", "using", "values", "view", "when", "whenever", "where", "with"]

/-- A word character for the regex `[^\w]` (ASCII): letter, digit or `_`. -/
def isWordChar (c : Char) : Bool := c.isAlphanum || c = '_'

/-- Collapses each run of whitespace to a single `'_'`
(the regex substitution `\s+` → `_`); `prevWs` records whether the previous
character belonged to a whitespace run. -/
def collapseWsGo (prevWs : Bool) : List Char → List Char
  | [] => []
  | c :: rest =>
      if isPyWs c then
        if prevWs then collapseWsGo true rest
        else '_' :: collapseWsGo true rest
      else c :: collapseWsGo false rest

/-- Step 1 of `normalise_headers`: strip, lowercase, collapse whitespace to
`_`, remove all non-word characters. -/
def headerClean (s : String) : String :=
  ⟨(collapseWsGo false ((pyStripList s.data).map Char.toLower)).filter isWordChar⟩

/-- Step 2 of `normalise_headers`: empty or `"nan"` headers become
`unnamed_col_<counter>`, with the counter increasing only on replacements. -/
def unnamedFill (k : Nat) : List String → List String
  | [] => []
  | v :: rest =>
      if v = "" ∨ v = "nan" then
        ("unnamed_col_" ++ toString k) :: unnamedFill (k + 1) rest
      else v :: unnamedFill k rest

/-- Truncation to the 255-character cap: `header[:252] + "..."`. -/
def truncate255 (h : String) : String :=
  if h.length > 255 then ⟨h.data.take 252⟩ ++ "..." else h

/-- Step 3 of `normalise_headers`: prefix `col_` before a leading digit,
suffix `_col` on a reserved word, then apply the length cap. -/
def sqlSafe (h : String) : String :=
  let h1 := match h.data with
    | c :: _ => if c.isDigit then "col_" ++ h else h
    | [] => h
  let h2 := if h1 ∈ SQL_RESERVED_WORDS then h1 ++ "_col" else h1
  truncate255 h2

/-- Lookup in the `seen` occurrence map. -/
def seenLookup (seen : List (String × Nat)) (h : String) : Option Nat :=
  match seen.find? (fun p => p.1 = h) with
  | some p => some p.2
  | none => none

/-- Increment of the `seen` occurrence count for `h`. -/
def seenBump (seen : List (String × Nat)) (h : String) : List (String × Nat) :=
  seen.map (fun p => if p.1 = h then (p.1, p.2 + 1) else p)

/-- Step 4 of `normalise_headers`: left-to-right duplicate resolution.  The
Nth repeat of `h` becomes `h_N` (length cap re-applied); the fresh name is
not itself recorded in `seen`. -/
def dedupHeaders (seen : List (String × Nat)) (dup : Nat) :
    List String → (List String × Nat)
  | [] => ([], dup)
  | h :: rest =>
      match seenLookup seen h with
      | some n =>
          let newh := truncate255 (h ++ "_" ++ toString (n + 1))
          let (tail, d) := dedupHeaders (seenBump seen h) (dup + 1) rest
          (newh :: tail, d)
      | none =>
          let (tail, d) := dedupHeaders ((h, 1) :: seen) dup rest
          (h :: tail, d)

/-- `normalise_headers`: the full identifier normaliser.  Returns the list
of SQL-safe column names and the number of duplicates resolved. -/
def normalise_headers (headers : List String) : List String × Nat :=
  dedupHeaders [] 0 (unnamedFill 1 (headers.map headerClean) |>.map sqlSafe)

example : normalise_headers ["First Name", "first-name", "2col", "select", ""] =
    (["first_name", "firstname", "col_2col", "select_col", "unnamed_col_1"], 0) := by decide

example : normalise_headers ["a", "a", "a"] = (["a", "a_2", "a_3"], 2) := by decide

example : normalise_headers ["a", "a_2", "a"] = (["a", "a_2", "a_2"], 1) := by decide

/-! ## Repeated-header detection (`detect_repeated_headers`) -/

/-- `df.empty` for a row-major frame: no rows, or rows of width zero. -/
def pandasEmptyRows (rows : List Row) : Bool :=
  match rows with
  | [] => true
  | r :: _ => r.isEmpty

/-- The header-value set: stripped-lowercased header names, blanks omitted
(a Python `set`, modelled as a deduplicated list). -/
def headerValueSet (headers : List String) : List String :=
  ((headers.filter (fun h => pyStrip h ≠ "")).map (fun h => pyLower (pyStrip h))).dedup

/-- The value set of a body row: stripped-lowercased cell texts (cells
printed with `astype(str)`), blanks omitted. -/
def rowValueSet (row : Row) : List String :=
  ((row.map strOfCell).filterMap (fun v =>
    let t := pyStrip v
    if t = "" then none else some (pyLower t))).dedup

/-- The number of positions at which the row's cell equals the header name
(both stripped and lowercased). -/
def positionMatches (headers : List String) (row : Row) : Nat :=
  headers.enum.countP fun p =>
    match row.get? p.1 with
    | some c => pyLower (pyStrip (strOfCell c)) = pyLower (pyStrip p.2)
    | none => false

/-- The drop test of `detect_repeated_headers`: nonempty row-value set, and
value-set overlap ratio `>= 0.7`, or positional match ratio `>= 0.7`
together with `len(row_set) >= len(header_set) * 0.5`. -/
def isRepeatedHeaderRow (headers : List String) (row : Row) : Bool :=
  let hset := headerValueSet headers
  let rset := rowValueSet row
  let overlap := (rset.filter (fun v => hset.contains v)).length
  rset.length > 0 &&
    (ratGe overlap rset.length 7 10 ||
      (ratGe (positionMatches headers row) headers.length 7 10 &&
        2 * rset.length ≥ hset.length))

/-- `detect_repeated_headers`: removes the body rows matching the header
pattern, returning the surviving rows and the number removed. -/
def detect_repeated_headers (rows : List Row) (headers : List String) :
    List Row × Nat :=
  if pandasEmptyRows rows || headers.isEmpty then (rows, 0)
  else if (headerValueSet headers).isEmpty then (rows, 0)
  else
    let toDrop := (rows.enum.filter fun p => isRepeatedHeaderRow headers p.2).map Prod.fst
    if toDrop.isEmpty then (rows, 0)
    else ((rows.enum.filter fun p => !(toDrop.contains p.1)).map Prod.snd, toDrop.length)

/-! ## Total-row detection (`detect_total_rows`) -/

/-- The keyword list of `detect_total_rows`. -/
def total_keywords : List String :=
  ["total", "subtotal", "grand total", "grand_total",
   "sum", "summary", "totals", "subtotals",
   "合计", "总计", "小计"]

/-- The joined text of a row: non-missing stripped nonempty cell values,
lowercased, joined with single spaces. -/
def rowJoinedText (row : Row) : String :=
  String.intercalate " " (row.filterMap fun c =>
    match c with
    | none => none
    | some s =>
        let t := pyStrip s
        if t = "" then none else some (pyLower t))

/-- Whether the row's joined text contains any total keyword. -/
def isTotalFlagged (row : Row) : Bool :=
  total_keywords.any (fun kw => pyContains kw (rowJoinedText row))

/-- Whether the row's joined text contains one of the specific keywords
`grand total`, `subtotal`, `grand_total`. -/
def hasSpecificTotalKw (row : Row) : Bool :=
  ["grand total", "subtotal", "grand_total"].any
    (fun kw => pyContains kw (rowJoinedText row))

/-- `(numeric, nonEmpty)` cell counts of a row, where numeric means
`float(...)` succeeds after removing `, $ %`. -/
def rowNumericCounts (row : Row) : Nat × Nat :=
  row.foldl (fun acc c =>
    match c with
    | none => acc
    | some s =>
        let t := pyStrip s
        if t = "" then acc
        else (acc.1 + (if isNumericStr t then 1 else 0), acc.2 + 1)) (0, 0)

/-- The high-confidence drop test of `detect_total_rows` for a flagged row
with index label `lbl` in a frame of `n` rows: a specific keyword, and
(mostly numeric cells, or `lbl >= n * 0.9`). -/
def isHighConfidenceTotal (n : Nat) (lbl : Nat) (row : Row) : Bool :=
  let counts := rowNumericCounts row
  let mostly := counts.2 > 0 && ratGe counts.1 counts.2 7 10
  let nearEnd := 10 * lbl ≥ 9 * n
  hasSpecificTotalKw row && (mostly || nearEnd)

/-- `detect_total_rows`: flags keyword rows (the added `__is_total_row`
column is the `Bool` in each returned triple), drops only high-confidence
ones, and reports `(flagged, dropped)` counts. -/
def detect_total_rows (lrows : List LRow) :
    List (Nat × Row × Bool) × Nat × Nat :=
  if lrows.isEmpty then ([], 0, 0)
  else
    let n := lrows.length
    let flagged := (lrows.filter fun p => isTotalFlagged p.2).map Prod.fst
    let dropped := (lrows.filter fun p =>
      isTotalFlagged p.2 && isHighConfidenceTotal n p.1 p.2).map Prod.fst
    let withFlag := lrows.map fun p => (p.1, p.2, isTotalFlagged p.2)
    ((withFlag.filter fun t => !(dropped.contains t.1)), flagged.length, dropped.length)

example :
    detect_repeated_headers
      [[some "name", some "age"], [some "Bob", some "7"]] ["name", "age"] =
    ([[some "Bob", some "7"]], 1) := by decide

example :
    detect_total_rows
      [(0, [some "Grand Total", some "1", some "2", some "3"]),
       (1, [some "x", some "y", some "z", some "w"])] =
    ([(1, [some "x", some "y", some "z", some "w"], false)], 1, 1) := by decide

/-! ## Context columns (`detect_context_columns`, `fill_down_context`) -/

/-- The category keywords of `detect_context_columns`. -/
def category_keywords : List String :=
  ["category", "group", "section", "region", "department",
   "division", "type", "class", "level", "hierarchy"]

/-- The internal bookkeeping column names. -/
def internalCols : List String := ["__possible_duplicate", "__is_total_row"]

/-- Index of the first column bearing a name (pandas resolves a duplicate
column label to its first occurrence). -/
def firstColIdx (headers : List String) (name : String) : Option Nat :=
  (headers.enum.find? (fun p => p.2 = name)).map Prod.fst

/-- The cells of column `j` of a working table (rows carry the
`__is_total_row` flag produced by `detect_total_rows`). -/
def tableColumn (rows : List (Nat × Row × Bool)) (j : Nat) : List Cell :=
  rows.map (fun t => t.2.1.getD j none)

/-- The context test of `detect_context_columns` for one column, given the
row count `n` and the column's `astype(str)` values: high blank ratio with
low cardinality, or very low cardinality, or a category keyword in the
name with blanks or low cardinality.  Cardinality defaults to `1.0` on an
empty non-blank list, as in the source. -/
def isContextColumn (n : Nat) (name : String) (series : List String) : Bool :=
  let bc := series.countP (fun v => pyStrip v ∈ ["", "nan", "None", "null"])
  let nonBlank := series.filter (fun v => pyStrip v ∉ ["", "nan", "None"])
  let u := nonBlank.dedup.length
  let nb := nonBlank.length
  let cardLt : Nat → Nat → Bool := fun p q =>
    if nb = 0 then q < p else ratLt u nb p q
  let hasKw := category_keywords.any (fun kw => pyContains kw (pyLower name))
  (10 * bc ≥ 3 * n && cardLt 2 10) ||
    (cardLt 1 10 && nb > 0) ||
    (hasKw && (10 * bc ≥ 2 * n || cardLt 3 10))

/-- `detect_context_columns`: the column names (in column order, duplicates
kept) classified as context columns; internal columns are skipped and a
duplicate name is resolved to its first occurrence's data. -/
def detect_context_columns (headers : List String)
    (rows : List (Nat × Row × Bool)) : List String :=
  if rows.isEmpty || headers.isEmpty then []
  else
    let n := rows.length
    (headers ++ ["__is_total_row"]).filter (fun name =>
      if name ∈ internalCols then false
      else
        match firstColIdx headers name with
        | none => false
        | some j => isContextColumn n name ((tableColumn rows j).map strOfCell))

/-- The forward-fill scan of `fill_down_context` over one column's
`astype(str)` values: a blank cell takes the last stripped non-blank value
seen above (or stays as printed when there is none); a non-blank cell is
rewritten to its stripped value. -/
def fillColGo (last : Option String) : List String → List String
  | [] => []
  | s :: rest =>
      let vstr := pyStrip s
      let blank := vstr = "" || pyLower vstr ∈ ["nan", "none", "null"]
      if blank then
        match last with
        | some lv => lv :: fillColGo (some lv) rest
        | none => s :: fillColGo none rest
      else vstr :: fillColGo (some vstr) rest

/-- `fill_down_context`: applies the forward-fill scan to each listed
column; a pandas assignment through a duplicate label writes the filled
series to every column with that name, reading from the first. -/
def fill_down_context (headers : List String) (ctx : List String)
    (rows : List (Nat × Row × Bool)) : List (Nat × Row × Bool) :=
  if rows.isEmpty || ctx.isEmpty then rows
  else ctx.foldl (fun cur name =>
    match firstColIdx headers name with
    | none => cur
    | some j =>
        let series := (tableColumn cur j).map strOfCell
        let filled := fillColGo none series
        let ks := (headers.enum.filter (fun p => p.2 = name)).map Prod.fst
        (cur.zip filled).map (fun pr =>
          (pr.1.1, ks.foldl (fun r k => r.set k (some pr.2)) pr.1.2.1, pr.1.2.2))) rows

example : fillColGo none ["A", "", "", "B", ""] = ["A", "A", "A", "B", "B"] := by decide
example : fillColGo none ["", "A"] = ["", "A"] := by decide

/-! ## Header band detection and flattening -/

/-- `notna` after `df.replace("", NA)`: a cell counts as non-empty when it
is present and not the empty string. -/
def notnaAfterEmptyRepl : Cell → Bool
  | none => false
  | some s => s ≠ ""

/-- Number of non-empty cells of a row (after `""` is treated as missing). -/
def rowNonEmptyCount (r : Row) : Nat := r.countP notnaAfterEmptyRepl

/-- Number of numeric-looking cells of a row (after `""` is treated as
missing), the header-depth heuristic's numeric counter. -/
def headerNumericCount (r : Row) : Nat :=
  r.countP (fun c =>
    match c with
    | none => false
    | some s => if s = "" then false else isNumericStr (pyStrip s))

/-- The row with index label `lbl`, when present. -/
def rowAtLabel (rows : List LRow) (lbl : Nat) : Option Row :=
  (rows.find? (fun p => p.1 = lbl)).map Prod.snd

/-- The header-band membership test of `detect_header_depth` for the row at
label `lbl`: present, dense (`count >= min_non_empty` and ratio `>= 0.3`),
and, in the second component, mostly non-numeric (`< 50%`). -/
def headerRowCheck (rows : List LRow) (minNE : Nat) (lbl : Nat) : Bool × Bool :=
  match rowAtLabel rows lbl with
  | none => (false, false)
  | some r =>
      let ne := rowNonEmptyCount r
      if ne ≥ minNE && 10 * ne ≥ 3 * r.length then
        (true, 2 * headerNumericCount r < ne)
      else (false, false)

/-- `detect_header_depth`: the first dense row starts the header band; up
to two further consecutive rows extend it while dense and mostly
non-numeric.  Returns `(start label, depth)`. -/
def detect_header_depth (rows : List LRow) (ncols : Nat) : Nat × Nat :=
  let minNE := max 2 (3 * ncols / 10)
  match rows.find? (fun p => rowNonEmptyCount p.2 ≥ minNE) with
  | none => ((rows.head?.map Prod.fst).getD 0, 1)
  | some st =>
      let start := st.1
      let maxD : Int := min 3 ((rows.length : Int) - (start : Int))
      let c2 := headerRowCheck rows minNE (start + 1)
      let depth :=
        if 2 ≤ maxD ∧ c2.1 ∧ c2.2 then
          let c3 := headerRowCheck rows minNE (start + 2)
          if 3 ≤ maxD ∧ c3.1 ∧ c3.2 then 3 else 2
        else 1
      (start, depth)

/-- Removal of consecutive duplicate header parts. -/
def dedupConsecutive : List String → List String
  | [] => []
  | [x] => [x]
  | x :: y :: rest =>
      if x = y then dedupConsecutive (y :: rest)
      else x :: dedupConsecutive (y :: rest)

/-- `flatten_multirow_headers`, composed with the `astype(str)` conversion
the caller applies: depth 1 returns the start row's printed cells; a
deeper band joins the non-blank stripped parts per column with `_`,
dropping consecutive duplicates, and names blank columns
`unnamed_col_<n>`. -/
def flatten_multirow_headers (rows : List LRow) (start depth : Nat) : List String :=
  if depth = 1 then ((rowAtLabel rows start).getD []).map strOfCell
  else
    let hrows := (List.range depth).filterMap
      (fun i => rowAtLabel rows (start + i))
    match hrows with
    | [] => ((rowAtLabel rows start).getD []).map strOfCell
    | first :: _ =>
        (List.range first.length).map (fun j =>
          let parts := hrows.filterMap (fun r =>
            match r.get? j with
            | none => none
            | some none => none
            | some (some s) =>
                let t := pyStrip s
                if t = "" then none else some t)
          if parts.isEmpty then "unnamed_col_" ++ toString (j + 1)
          else String.intercalate "_" (dedupConsecutive parts))

/-! ## The per-table pipeline (`clean_single_sheet`) -/

/-- The metadata record of `clean_single_sheet` (numeric fields). -/
structure CleanMeta where
  duplicate_column_names_fixed : Nat := 0
  repeated_header_rows_dropped : Nat := 0
  totals_rows_dropped : Nat := 0
  totals_rows_flagged : Nat := 0
  header_row_index : Nat := 0
  header_depth_used : Nat := 1
  context_columns_filled : List String := []
  rows_in : Nat := 0
  rows_out : Nat := 0
deriving DecidableEq

/-- `clean_single_sheet`: drops fully empty rows and columns, detects and
flattens the header band, normalises identifiers, removes repeated-header
rows, drops empty rows, filters total rows, fills context columns down and
flags exact duplicate rows.  Returns the final rows (index label, cells,
`__is_total_row`, `__possible_duplicate`), the normalised headers and the
metadata. -/
def clean_single_sheet (grid : List Row) :
    List (Nat × Row × Bool × Bool) × List String × CleanMeta :=
  let rows0 := grid.enum.filter (fun p => p.2.any (fun c => c.isSome))
  let w := (grid.head?.map List.length).getD 0
  let keepCols := (List.range w).filter
    (fun j => rows0.any (fun p => (p.2.getD j none).isSome))
  let rows1 : List LRow := rows0.map (fun p => (p.1, keepCols.map (fun j => p.2.getD j none)))
  let rowsIn := rows1.length
  if rows1.isEmpty || keepCols.isEmpty then
    ([], [], { rows_in := rowsIn, rows_out := 0 })
  else
    let hd := detect_header_depth rows1 keepCols.length
    let flat := flatten_multirow_headers rows1 hd.1 hd.2
    let dataRows : List Row := (rows1.filter (fun p => p.1 ≥ hd.1 + hd.2)).map Prod.snd
    let nh := normalise_headers flat
    let headers := nh.1
    let rep := detect_repeated_headers dataRows headers
    let afterDropna : List LRow := rep.1.enum.filter (fun p => p.2.any (fun c => c.isSome))
    let tot := if afterDropna.isEmpty then ([], 0, 0) else detect_total_rows afterDropna
    let afterTotal := tot.1
    let ctx := if afterTotal.isEmpty then [] else detect_context_columns headers afterTotal
    let afterFill := if afterTotal.isEmpty then afterTotal
      else fill_down_context headers ctx afterTotal
    let keys := afterFill.map (fun t => (t.2.1, t.2.2))
    let final := afterFill.map
      (fun t => (t.1, t.2.1, t.2.2, decide (2 ≤ keys.count (t.2.1, t.2.2))))
    (final, headers,
      { duplicate_column_names_fixed := nh.2
        repeated_header_rows_dropped := rep.2
        totals_rows_dropped := tot.2.2
        totals_rows_flagged := tot.2.1
        header_row_index := hd.1
        header_depth_used := hd.2
        context_columns_filled := ctx
        rows_in := rowsIn
        rows_out := final.length })

example :
    (clean_single_sheet
      [[some "name", some "age"],
       [some "ann", some "3"],
       [some "bob", some "4"]]).2.2.rows_in = 3 := by decide

example :
    (clean_single_sheet
      [[some "name", some "age"],
       [some "ann", some "3"],
       [some "bob", some "4"]]).2.2.rows_out = 2 := by decide

example :
    (clean_single_sheet
      [[some "name", some "age"],
       [some "ann", some "3"],
       [some "bob", some "4"]]).2.1 = ["name", "age"] := by decide

/-! ## Date parsing (`datetime.strptime` for the fixed format lists) -/

/-- A `strptime` format token: a literal character or one of the numeric
fields used by the source's format lists. -/
inductive FmtTok where
  | lit (c : Char)
  | y4
  | mo
  | dy
  | hh
  | mi
  | ss
  | us
deriving DecidableEq

/-- A parsed timestamp (strptime defaults: 1900-01-01 00:00:00). -/
structure PyDateTime where
  year : Nat := 1900
  month : Nat := 1
  day : Nat := 1
  hour : Nat := 0
  minute : Nat := 0
  second : Nat := 0
  micro : Nat := 0
deriving DecidableEq

/-- Greedy scan of up to `maxd` further digits of a numeric field. -/
def numFieldGo : Nat → Nat → List Char → (Nat × List Char)
  | 0, acc, rest => (acc, rest)
  | _ + 1, acc, [] => (acc, [])
  | k + 1, acc, c :: rest =>
      if c.isDigit then numFieldGo k (acc * 10 + (c.toNat - 48)) rest
      else (acc, c :: rest)

/-- A 1-to-`maxd` digit numeric field (the `\d{1,n}` patterns of
`_strptime`; a range violation is rejected by the later validity check,
as the `datetime` constructor does). -/
def parseNumField (maxd : Nat) : List Char → Option (Nat × List Char)
  | c :: rest =>
      if c.isDigit then some (numFieldGo (maxd - 1) (c.toNat - 48) rest) else none
  | [] => none

/-- `%Y`: exactly four digits. -/
def parseY4 : List Char → Option (Nat × List Char)
  | a :: b :: c :: d :: rest =>
      if a.isDigit && b.isDigit && c.isDigit && d.isDigit then
        some (digitsVal [a, b, c, d], rest)
      else none
  | _ => none

/-- Runs a format token list over the input, which must be consumed
entirely. -/
def runFmtGo (dt : PyDateTime) : List FmtTok → List Char → Option PyDateTime
  | [], [] => some dt
  | [], _ :: _ => none
  | .lit c :: fs, l =>
      match l with
      | x :: rest => if x = c then runFmtGo dt fs rest else none
      | [] => none
  | .y4 :: fs, l => (parseY4 l).bind fun p => runFmtGo { dt with year := p.1 } fs p.2
  | .mo :: fs, l => (parseNumField 2 l).bind fun p => runFmtGo { dt with month := p.1 } fs p.2
  | .dy :: fs, l => (parseNumField 2 l).bind fun p => runFmtGo { dt with day := p.1 } fs p.2
  | .hh :: fs, l => (parseNumField 2 l).bind fun p => runFmtGo { dt with hour := p.1 } fs p.2
  | .mi :: fs, l => (parseNumField 2 l).bind fun p => runFmtGo { dt with minute := p.1 } fs p.2
  | .ss :: fs, l => (parseNumField 2 l).bind fun p => runFmtGo { dt with second := p.1 } fs p.2
  | .us :: fs, l => (parseNumField 6 l).bind fun p => runFmtGo { dt with micro := p.1 } fs p.2

/-- Days in a month, Gregorian leap rule (the `datetime` validity rule). -/
def daysInMonth (y m : Nat) : Nat :=
  if m = 2 then
    if y % 4 = 0 ∧ (y % 100 ≠ 0 ∨ y % 400 = 0) then 29 else 28
  else if m = 4 ∨ m = 6 ∨ m = 9 ∨ m = 11 then 30
  else 31

/-- The `datetime` constructor's field validation. -/
def pyDateTimeValid (dt : PyDateTime) : Bool :=
  1 ≤ dt.year && 1 ≤ dt.month && dt.month ≤ 12 &&
    1 ≤ dt.day && dt.day ≤ daysInMonth dt.year dt.month &&
    dt.hour ≤ 23 && dt.minute ≤ 59 && dt.second ≤ 59

/-- `datetime.strptime(s, fmt)` for one of the fixed formats. -/
def strptime (fmt : List FmtTok) (s : String) : Option PyDateTime :=
  match runFmtGo {} fmt s.data with
  | some dt => if pyDateTimeValid dt then some dt else none
  | none => none

/-- First format of the list that parses the value, if any. -/
def tryFormats (fmts : List (List FmtTok)) (s : String) : Option PyDateTime :=
  match fmts with
  | [] => none
  | f :: rest =>
      match strptime f s with
      | some dt => some dt
      | none => tryFormats rest s

/-- `'%Y-%m-%d'`. -/
def fmtYmd : List FmtTok := [.y4, .lit '-', .mo, .lit '-', .dy]
/-- `'%m/%d/%Y'`. -/
def fmtMdY : List FmtTok := [.mo, .lit '/', .dy, .lit '/', .y4]
/-- `'%d/%m/%Y'`. -/
def fmtDmY : List FmtTok := [.dy, .lit '/', .mo, .lit '/', .y4]
/-- `'%Y/%m/%d'`. -/
def fmtYsMsD : List FmtTok := [.y4, .lit '/', .mo, .lit '/', .dy]
/-- `'%d-%m-%Y'`. -/
def fmtDdMdY : List FmtTok := [.dy, .lit '-', .mo, .lit '-', .y4]
/-- `'%m-%d-%Y'`. -/
def fmtMdDdY : List FmtTok := [.mo, .lit '-', .dy, .lit '-', .y4]

/-- `' %H:%M:%S'` suffix after a separator character. -/
def hmsSuffix (sep : Char) : List FmtTok :=
  [.lit sep, .hh, .lit ':', .mi, .lit ':', .ss]

/-- The date-only formats of `analyze_column_types`. -/
def analyzeDateFormats : List (List FmtTok) := [fmtYmd, fmtMdY, fmtDmY]

/-- The timestamp formats of `analyze_column_types`. -/
def analyzeTsFormats : List (List FmtTok) :=
  [fmtYmd ++ hmsSuffix ' ', fmtMdY ++ hmsSuffix ' ',
   fmtDmY ++ hmsSuffix ' ', fmtYmd ++ hmsSuffix 'T']

/-- The date-only formats of `standardize_dates`. -/
def stdDateFormats : List (List FmtTok) :=
  [fmtYmd, fmtMdY, fmtDmY, fmtYsMsD, fmtDdMdY, fmtMdDdY]

/-- The timestamp formats of `standardize_dates` (the `%d/%m/%Y %H:%M:%S`
entry is listed twice in the source). -/
def stdTsFormats : List (List FmtTok) :=
  [fmtYmd ++ hmsSuffix ' ', fmtMdY ++ hmsSuffix ' ', fmtDmY ++ hmsSuffix ' ',
   fmtYmd ++ hmsSuffix 'T', fmtYsMsD ++ hmsSuffix ' ', fmtDmY ++ hmsSuffix ' ',
   fmtYmd ++ hmsSuffix ' ' ++ [.lit '.', .us],
   fmtYmd ++ hmsSuffix 'T' ++ [.lit '.', .us]]

/-! ## Type profiling (`analyze_column_types`) -/

/-- Banker's rounding of `num / den` to the nearest integer (Python
`round`), used for the reported one-decimal percentages. -/
def pyRoundHalfEven (num den : Nat) : Nat :=
  if den = 0 then 0
  else
    let f := num / den
    let r := num % den
    if 2 * r < den then f
    else if 2 * r > den then f + 1
    else if f % 2 = 0 then f else f + 1

/-- The per-column result of `analyze_column_types`: parse percentages in
tenths of a percent (`pct_int` is `pctInt10 / 10`), the recommendation,
whether a date match had a time part, and sample values. -/
structure ColProfile where
  pctInt10 : Nat
  pctFloat10 : Nat
  pctDate10 : Nat
  recommended_type : String
  has_timestamp : Bool
  sample_values : List String
deriving DecidableEq

/-- The counting loop of `analyze_column_types` over the non-missing
values: `(int, float, date, any-timestamp)` with blank-likes skipped,
integer tried first, float next, then date-only and timestamp formats. -/
def analyzeCounts (series : List String) : Nat × Nat × Nat × Bool :=
  series.foldl
    (fun acc val =>
      let t := pyStrip val
      if t = "" || pyLower t ∈ ["nan", "none", "null"] then acc
      else if pyIntOk t then (acc.1 + 1, acc.2.1, acc.2.2.1, acc.2.2.2)
      else if (pyFloatParse t).isSome then (acc.1, acc.2.1 + 1, acc.2.2.1, acc.2.2.2)
      else if (tryFormats analyzeDateFormats t).isSome then
        (acc.1, acc.2.1, acc.2.2.1 + 1, acc.2.2.2)
      else if (tryFormats analyzeTsFormats t).isSome then
        (acc.1, acc.2.1, acc.2.2.1 + 1, true)
      else acc)
    (0, 0, 0, false)

/-- `analyze_column_types` for one column: drops missing values, counts
parseability over all remaining values, and recommends
`DATE`/`TIMESTAMP_NTZ` at a date rate `>= 80%`, else `INTEGER` at an
integer rate `>= 90%`, else `FLOAT` at a float rate `>= 80%`, else
`VARCHAR`. -/
def analyzeColumn (cells : List Cell) : ColProfile :=
  let series := cells.filterMap id
  if series.isEmpty then
    { pctInt10 := 0, pctFloat10 := 0, pctDate10 := 0,
      recommended_type := "VARCHAR", has_timestamp := false, sample_values := [] }
  else
    let total := series.length
    let counts := analyzeCounts series
    let ic := counts.1
    let fc := counts.2.1
    let dc := counts.2.2.1
    let hts := counts.2.2.2
    let rec_ :=
      if ratGe (100 * dc) total 80 1 then
        if hts then "TIMESTAMP_NTZ" else "DATE"
      else if ratGe (100 * ic) total 90 1 then "INTEGER"
      else if ratGe (100 * fc) total 80 1 then "FLOAT"
      else "VARCHAR"
    { pctInt10 := pyRoundHalfEven (1000 * ic) total
      pctFloat10 := pyRoundHalfEven (1000 * fc) total
      pctDate10 := pyRoundHalfEven (1000 * dc) total
      recommended_type := rec_
      has_timestamp := hts
      sample_values := series.take 3 }

/-- `analyze_column_types` over named columns (the duplicate-flag column is
excluded, as in the source). -/
def analyze_column_types (cols : List (String × List Cell)) :
    List (String × ColProfile) :=
  (cols.filter (fun c => c.1 ≠ "__possible_duplicate")).map
    (fun c => (c.1, analyzeColumn c.2))

example : (analyzeColumn [some "1", some "2", some "3", some "x"]).recommended_type
    = "VARCHAR" := by decide
example : (analyzeColumn [some "1", some "2", some "3", some "4"]).recommended_type
    = "INTEGER" := by decide
example : (analyzeColumn [some "2021-05-06", some "2021-05-07 10:00:00"]).recommended_type
    = "TIMESTAMP_NTZ" := by decide

/-! ## SQL sanitisation (`sanitize_for_sql` and helpers) -/

/-- The literal list replaced by `pd.NA` in `sanitize_for_sql` (pandas
`replace` matches whole cell values exactly). -/
def sqlNullLiterals : List String :=
  ["", "nan", "None", "null", "NULL", "NaN", "N/A", "n/a"]

/-- The null-normalisation step of `sanitize_for_sql` on one column. -/
def replaceNullLikes (cells : List Cell) : List Cell :=
  cells.map fun c =>
    match c with
    | none => none
    | some s => if s ∈ sqlNullLiterals then none else some s

/-- `sanitize_string_value`: keeps a missing value missing, removes control
characters other than tab, newline and carriage return (and DEL), and turns
a value that is blank after stripping into a missing value. -/
def sanitize_string_value (c : Cell) : Cell :=
  match c with
  | none => none
  | some s =>
      let res : String := ⟨s.data.filter (fun ch =>
        (32 ≤ ch.toNat && ch.toNat ≠ 127) || ch.toNat = 9 || ch.toNat = 10 || ch.toNat = 13)⟩
      if pyStrip res = "" then none else some res

/-- Zero padding to two digits. -/
def pad2 (n : Nat) : String := if n < 10 then "0" ++ toString n else toString n

/-- Zero padding to four digits (`%Y` output). -/
def pad4 (n : Nat) : String :=
  if n < 10 then "000" ++ toString n
  else if n < 100 then "00" ++ toString n
  else if n < 1000 then "0" ++ toString n
  else toString n

/-- `strftime` to `%Y-%m-%d` or `%Y-%m-%dT%H:%M:%S`. -/
def fmtIso (dateType : String) (dt : PyDateTime) : String :=
  let d := pad4 dt.year ++ "-" ++ pad2 dt.month ++ "-" ++ pad2 dt.day
  if dateType = "TIMESTAMP_NTZ" then
    d ++ "T" ++ pad2 dt.hour ++ ":" ++ pad2 dt.minute ++ ":" ++ pad2 dt.second
  else d

/-- `standardize_dates`: parses each non-blank value against the fixed
format list for the recommended type, falling back to the flexible pandas
parser `flexi` (an external collaborator, passed as a parameter);
unparseable values become missing, parseable ones are rewritten to ISO
form. -/
def standardize_dates (flexi : String → Option PyDateTime) (dateType : String)
    (cells : List Cell) : List Cell :=
  cells.map fun c =>
    match c with
    | none => none
    | some s =>
        let t := pyStrip s
        if t = "" || pyLower t ∈ ["nan", "none", "null"] then none
        else
          let fmts := if dateType = "TIMESTAMP_NTZ" then stdTsFormats else stdDateFormats
          match tryFormats fmts t with
          | some dt => some (fmtIso dateType dt)
          | none =>
              match flexi t with
              | some dt => some (fmtIso dateType dt)
              | none => none

/-- Python `int(float)` for the exact value `m * 10 ^ e`: truncation toward
zero. -/
def pyTruncInt (m e : Int) : Int :=
  if 0 ≤ e then m * 10 ^ e.toNat else m.tdiv (10 ^ (-e).toNat)

/-- Trailing-zero removal for fraction digits. -/
def stripTrailingZeros (s : String) : String :=
  ⟨(s.data.reverse.dropWhile (fun c => c = '0')).reverse⟩

/-- Left zero-padding of a digit string to `k` digits. -/
def padLeftZeros (k : Nat) (s : String) : String :=
  if s.length < k then ⟨List.replicate (k - s.length) '0'⟩ ++ s else s

/-- `str(float)` for the exact value `m * 10 ^ e`: plain decimal form with
a trailing `.0` on integral values (CPython's shortest-repr and scientific
forms for extreme magnitudes are idealised away). -/
def pyStrFloat (m e : Int) : String :=
  if 0 ≤ e then toString (m * 10 ^ e.toNat) ++ ".0"
  else
    let k := (-e).toNat
    let ipn := m.natAbs / 10 ^ k
    let fr := stripTrailingZeros (padLeftZeros k (toString (m.natAbs % 10 ^ k)))
    (if m < 0 then "-" else "") ++ toString ipn ++ "." ++
      (if fr = "" then "0" else fr)

/-- `validate_numeric_values` on one cell: blank-likes become missing; the
value is parsed by `float` after removing `, $ %`; an `INTEGER` column
stores `str(int(float(...)))` (truncation toward zero), a `FLOAT` column
stores `str(float(...))`; parse failures and non-finite values become
missing. -/
def validateNumericCell (ntype : String) (c : Cell) : Cell :=
  match c with
  | none => none
  | some s =>
      let t := pyStrip s
      if t = "" || pyLower t ∈ ["nan", "none", "null"] then none
      else
        let clean := pyStrip (removeFmtChars t)
        match pyFloatParse clean with
        | some (.finite m e) =>
            if ntype = "INTEGER" then some (toString (pyTruncInt m e))
            else some (pyStrFloat m e)
        | some .infinite => none
        | some .nanv => none
        | none => none

/-- `validate_numeric_values` over a column. -/
def validate_numeric_values (ntype : String) (cells : List Cell) : List Cell :=
  cells.map (validateNumericCell ntype)

/-- The per-column body of `sanitize_for_sql`: null-literal replacement
followed by the branch for the column's recommended type. -/
def sanitizeColumn (flexi : String → Option PyDateTime) (rt : String)
    (cells : List Cell) : List Cell :=
  let v := replaceNullLikes cells
  if rt = "DATE" || rt = "TIMESTAMP_NTZ" then standardize_dates flexi rt v
  else if rt = "VARCHAR" then v.map sanitize_string_value
  else if rt = "INTEGER" || rt = "FLOAT" then validate_numeric_values rt v
  else v

/-- `sanitize_for_sql`: every data column (internal flag columns excluded)
is null-normalised and then rewritten according to its recommended type
(`typeOf`, modelling `type_analysis.get(col, {}).get('recommended_type',
'VARCHAR')`). -/
def sanitize_for_sql (flexi : String → Option PyDateTime)
    (typeOf : String → String) (cols : List (String × List Cell)) :
    List (String × List Cell) :=
  if cols.all (fun c => c.2.isEmpty) then cols
  else cols.map fun col =>
    if col.1 ∈ internalCols then col
    else (col.1, sanitizeColumn flexi (typeOf col.1) col.2)

example :
    validate_numeric_values "INTEGER" [some "12.7", some "3", some "x"] =
      [some "12", some "3", none] := by decide

example :
    validate_numeric_values "INTEGER" [some "-12.7", some "$1,234"] =
      [some "-12", some "1234"] := by decide

example :
    sanitize_for_sql (fun _ => none) (fun _ => "VARCHAR")
      [("c", [some "NONE", some "nan", some "NULL", some "Null"])] =
      [("c", [some "NONE", none, none, some "Null"])] := by decide

/-! ## Orchestration (`normalize_spreadsheet`): per-region error handling -/

/-- A Python exception as seen by the orchestrator: a `ValueError` or any
other exception type, with its message (`str(e)`). -/
inductive PyExc where
  | valueError (msg : String)
  | otherError (msg : String)
deriving DecidableEq

/-- `str(e)`. -/
def excMessage : PyExc → String
  | .valueError m => m
  | .otherError m => m

/-- The per-region handler's catch test: only a `ValueError` whose message
contains `"truth value"` or `"ambiguous"` (case-insensitive) is caught at
table level; every other exception propagates to the per-sheet handler. -/
def caughtAtTableLevel : PyExc → Bool
  | .valueError msg =>
      pyContains "truth value" (pyLower msg) || pyContains "ambiguous" (pyLower msg)
  | .otherError _ => false

/-- The fields of one `meta_rows` entry that the quality flag reads, plus
the table name and cleaned body. -/
structure MetaRow where
  tabName : String
  cleanStatus : String
  errorsStr : String
  warningsStr : String
  exactDuplicateRows : Nat
  totalsRowsDropped : Nat
  repeatedHeaderRowsDropped : Nat
  body : List Row
deriving DecidableEq

/-- The quality flag of a `meta_rows` entry (the orchestrator's `flag`). -/
def qualityFlag (r : MetaRow) : String :=
  if r.cleanStatus ≠ "OK" then "ERROR - Check tab"
  else if r.errorsStr ≠ "" && pyStrip r.errorsStr ≠ "" && pyLower r.errorsStr ≠ "nan" then
    "ERROR - Check tab"
  else if r.warningsStr ≠ "" && pyStrip r.warningsStr ≠ "" && pyLower r.warningsStr ≠ "nan" then
    "REVIEW - Warnings present"
  else if r.exactDuplicateRows ≥ 100 then "REVIEW - High duplicate count"
  else if r.totalsRowsDropped > 0 then "REVIEW - Totals removed"
  else if r.repeatedHeaderRowsDropped > 0 then "REVIEW - Repeated headers removed"
  else "OK"

/-- What one successful table clean contributes to its metadata row. -/
structure TableOut where
  body : List Row
  warnings : List String
  errors : List String
  totalsDropped : Nat
  repeatedDropped : Nat
  dupRows : Nat
deriving DecidableEq

/-- `"; ".join`. -/
def joinSemicolon (l : List String) : String := String.intercalate "; " l

/-- The message built for a table-level caught error. -/
def tableErrorMsg (sheetName msg : String) : String :=
  "Data structure issue in sheet '" ++ sheetName ++ "': " ++ msg ++
    ". This may be due to duplicate columns or unusual data structure. The sheet will be skipped."

/-- Virtual table name: `<sheet>__table<NN>` when the sheet has several
regions, else the sheet name. -/
def mkVirtualName (sheetName : String) (total idx : Nat) : String :=
  if total > 1 then sheetName ++ "__table" ++ pad2 idx else sheetName

/-- The per-region loop of `normalize_spreadsheet`, over an abstract
per-table cleaner that may raise: a caught `ValueError` (ambiguous truth
value) yields an error-tagged empty-bodied entry and the loop continues;
any other exception propagates out of the loop. -/
def processRegions (cleaner : List Row → Except PyExc TableOut)
    (sheetName : String) (total : Nat) :
    Nat → List (List Row) → Except PyExc (List MetaRow)
  | _, [] => .ok []
  | idx, g :: rest =>
      let vname := mkVirtualName sheetName total idx
      match cleaner g with
      | .ok t =>
          (processRegions cleaner sheetName total (idx + 1) rest).map fun tail =>
            { tabName := vname, cleanStatus := "OK",
              errorsStr := joinSemicolon t.errors,
              warningsStr := joinSemicolon t.warnings,
              exactDuplicateRows := t.dupRows,
              totalsRowsDropped := t.totalsDropped,
              repeatedHeaderRowsDropped := t.repeatedDropped,
              body := t.body } :: tail
      | .error e =>
          if caughtAtTableLevel e then
            (processRegions cleaner sheetName total (idx + 1) rest).map fun tail =>
              { tabName := vname, cleanStatus := "OK",
                errorsStr := tableErrorMsg sheetName (excMessage e),
                warningsStr := "",
                exactDuplicateRows := 0, totalsRowsDropped := 0,
                repeatedHeaderRowsDropped := 0, body := [] } :: tail
          else .error e

/-- One sheet of `normalize_spreadsheet`: the region loop under the
per-sheet `except Exception` handler, which replaces the whole sheet's
entries by a single sheet-level `ERROR` row. -/
def processSheet (cleaner : List Row → Except PyExc TableOut)
    (sheetName : String) (regions : List (List Row)) : List MetaRow :=
  match processRegions cleaner sheetName regions.length 1 regions with
  | .ok rows => rows
  | .error e =>
      [{ tabName := sheetName, cleanStatus := "ERROR",
         errorsStr := excMessage e, warningsStr := "",
         exactDuplicateRows := 0, totalsRowsDropped := 0,
         repeatedHeaderRowsDropped := 0, body := [] }]

/-- The sheet loop of `normalize_spreadsheet`: metadata rows of all sheets
in order. -/
def normalize_spreadsheet (cleaner : List Row → Except PyExc TableOut)
    (sheets : List (String × List (List Row))) : List MetaRow :=
  (sheets.map (fun s => processSheet cleaner s.1 s.2)).flatten

/-! ## Specification-side predicates (stated from the spec's words) -/

/-- First character class of the identifier regex `^[a-z_]`. -/
def goodFirstChar (c : Char) : Bool := c.isLower || c = '_'

/-- Character class `[a-z0-9_]` of the identifier regex. -/
def goodIdentChar (c : Char) : Bool := c.isLower || c.isDigit || c = '_'

/-- Whether a character list matches `^[a-z_][a-z0-9_]*$`. -/
def matchesSqlIdentChars : List Char → Bool
  | [] => false
  | c :: rest => goodFirstChar c && rest.all goodIdentChar

/-- Whether a string matches the spec's identifier regex
`^[a-z_][a-z0-9_]*$`. -/
def matchesSqlIdent (s : String) : Bool := matchesSqlIdentChars s.data

/-- A truncated identifier: 252 characters of identifier shape followed by
the three-character ellipsis marker `...`, 255 characters in total. -/
def isTruncatedIdent (s : String) : Bool :=
  decide (s.length = 255) && matchesSqlIdentChars (s.data.take 252) &&
    decide (s.data.drop 252 = ['.', '.', '.'])

/-- The repeated-header drop rule exactly as claim C3 words it: value-set
overlap ratio `>= 0.70`, or positional match ratio `>= 0.70` together with
overlap `>= 0.35 ×` header-set size. -/
def claimRepeatedHeaderRule (headers : List String) (row : Row) : Bool :=
  let hset := headerValueSet headers
  let rset := rowValueSet row
  let overlap := (rset.filter (fun v => hset.contains v)).length
  rset.length > 0 &&
    (ratGe overlap rset.length 7 10 ||
      (ratGe (positionMatches headers row) headers.length 7 10 &&
        ratGe overlap 1 (35 * hset.length) 100))

/-- The repeated-header drop rule as the code actually has it (the amended
claim): the second disjunct requires the row's value-set size to be at
least half the header-set size. -/
def amendedRepeatedHeaderRule (headers : List String) (row : Row) : Bool :=
  let hset := headerValueSet headers
  let rset := rowValueSet row
  let overlap := (rset.filter (fun v => hset.contains v)).length
  rset.length > 0 &&
    (ratGe overlap rset.length 7 10 ||
      (ratGe (positionMatches headers row) headers.length 7 10 &&
        ratGe rset.length 1 hset.length 2))

/-- The total-row "specific keyword" test exactly as claim C4 words it:
only `grand total` and `subtotal`. -/
def claimSpecificTotalKw (row : Row) : Bool :=
  ["grand total", "subtotal"].any (fun kw => pyContains kw (rowJoinedText row))

/-- The total-row drop rule exactly as claim C4 words it. -/
def claimTotalDropRule (n lbl : Nat) (row : Row) : Bool :=
  let c := rowNumericCounts row
  claimSpecificTotalKw row && ((c.2 > 0 && ratGe c.1 c.2 7 10) || 10 * lbl ≥ 9 * n)

/-- The total-row flag rule of the spec: the joined row text contains one
of the total keywords. -/
def specTotalFlagRule (row : Row) : Bool :=
  total_keywords.any (fun kw => pyContains kw (rowJoinedText row))

/-- The total-row drop rule as the code actually has it (the amended
claim): the specific-keyword set also contains `grand_total`. -/
def amendedTotalDropRule (n lbl : Nat) (row : Row) : Bool :=
  let c := rowNumericCounts row
  (["grand total", "subtotal", "grand_total"].any
      (fun kw => pyContains kw (rowJoinedText row))) &&
    ((c.2 > 0 && ratGe c.1 c.2 7 10) || 10 * lbl ≥ 9 * n)

/-- The spec's type recommendation order: date rate `>= 80%` (timestamp if
any match had a time part), else integer rate `>= 90%`, else float rate
`>= 80%`, else `VARCHAR`. -/
def specTypeRecommendation (total ic fc dc : Nat) (hts : Bool) : String :=
  if 5 * dc ≥ 4 * total then (if hts then "TIMESTAMP_NTZ" else "DATE")
  else if 10 * ic ≥ 9 * total then "INTEGER"
  else if 5 * fc ≥ 4 * total then "FLOAT"
  else "VARCHAR"

/-- The fill-down blank test of the spec (empty or `nan`/`none`/`null`
after stripping and lowercasing). -/
def specBlankVal (s : String) : Bool :=
  pyStrip s = "" || pyLower (pyStrip s) ∈ ["nan", "none", "null"]

/-- The stripped value of a non-blank cell, `none` on a blank one. -/
def specNonBlankVal (s : String) : Option String :=
  if specBlankVal s then none else some (pyStrip s)

/-- The nearest preceding non-blank (stripped) value above position `i` of
a column, reading top to bottom. -/
def lastNonBlankBefore (vals : List String) (i : Nat) : Option String :=
  ((vals.take i).filterMap specNonBlankVal).getLast?

/-! ## Claim C1 -/

/-- Claim C1 (status: code bug): the claim — and `normalise_headers`' own
docstring — promise an output without duplicate identifiers, but on the
header row `["a", "a_2", "a"]` the duplicate-resolution step renames the
second `"a"` to `"a_2"`, which collides with the existing `"a_2"`: the
output `["a", "a_2", "a_2"]` contains a duplicate. -/
theorem C1_normalise_headers_uniqueness_bug :
    normalise_headers ["a", "a_2", "a"] = (["a", "a_2", "a_2"], 1) ∧
      ¬ (normalise_headers ["a", "a_2", "a"]).1.Nodup := by decide

/-! ## Claim C2 -/

/-- A header of 256 `a`s. -/
def longHeader : String := ⟨List.replicate 256 'a'⟩

/-- The identifier it is truncated to: 252 `a`s and the ellipsis marker. -/
def truncatedLongHeader : String := ⟨List.replicate 252 'a'⟩ ++ "..."

/-- Claim C2, counterexample: it is not true that every identifier produced
by `normalise_headers` matches `^[a-z_][a-z0-9_]*$`: the truncation step
appends the marker `"..."`, whose dots are outside the character class.
The input `[longHeader]` (256 `a`s) produces an identifier containing
`'.'`. -/
theorem C2_counterexample_truncation_marker :
    ¬ (∀ hs : List String, ∀ h ∈ (normalise_headers hs).1,
        matchesSqlIdent h = true ∧ h.length ≤ 255) := by
  intro hcl
  have hmem : truncatedLongHeader ∈ (normalise_headers [longHeader]).1 := by decide
  have h := (hcl [longHeader] truncatedLongHeader hmem).1
  have hfail : matchesSqlIdent truncatedLongHeader = false := by decide
  rw [hfail] at h
  exact Bool.false_ne_true h

/-! ## Claim C3 -/

/-- Ten headers with a repeated name (reachable, since `normalise_headers`
can emit duplicates). -/
def exHeadersC3 : List String :=
  ["a", "a", "a", "a", "a", "a", "a", "b", "c", "d"]

/-- A body row matching the repeated name positionally but sharing only one
value with the header set. -/
def exRowC3 : Row :=
  [some "a", some "a", some "a", some "a", some "a", some "a", some "a",
   some "x", some "y", some "z"]

/-- Claim C3, counterexample: `detect_repeated_headers` drops `exRowC3`
(positional ratio `0.7`, row-set size `4 >= 0.5 × 4`), although the rule
exactly as the claim words it — requiring overlap `>= 0.35 ×` header-set
size, here `1 < 1.4` — does not classify the row.  The code's second
disjunct tests the row's value-set size against `0.5 ×` header-set size,
not the overlap against `0.35 ×` header-set size. -/
theorem C3_counterexample_second_disjunct :
    detect_repeated_headers [exRowC3] exHeadersC3 = ([], 1) ∧
      claimRepeatedHeaderRule exHeadersC3 exRowC3 = false := by decide

/-! ## Claim C4 -/

/-- A summary row whose specific keyword is `grand_total` (underscore). -/
def exTotalRowC4 : Row := [some "grand_total", some "1", some "2", some "3"]

/-- An unremarkable body row. -/
def exPlainRowC4 : Row := [some "x", some "y", some "z", some "w"]

/-- Claim C4, counterexample: the first row is dropped by
`detect_total_rows` (its keyword `grand_total` is in the code's specific
set and 3 of 4 values are numeric), although the drop rule exactly as the
claim words it — specific keywords `grand total`/`subtotal` only — does
not cover it, so the claimed "if and only if" fails. -/
theorem C4_counterexample_grand_underscore :
    detect_total_rows [(0, exTotalRowC4), (1, exPlainRowC4)] =
        ([(1, exPlainRowC4, false)], 1, 1) ∧
      claimTotalDropRule 2 0 exTotalRowC4 = false := by decide

/-! ## Claim C5 -/

/-- Claim C5, counterexample: the sanitizer's replacement list is an exact
(case-sensitive) literal list, not a case-insensitive match: on a
`VARCHAR` column the value `"NONE"` — a case variant of `"None"`, hence
missing-like per the claim — survives sanitisation unchanged. -/
theorem C5_counterexample_case_variant :
    ¬ (∀ (flexi : String → Option PyDateTime) (typeOf : String → String)
        (cols : List (String × List Cell)) (name : String) (cells : List Cell)
        (i : Nat) (s : String),
        (name, cells) ∈ sanitize_for_sql flexi typeOf cols →
        name ∉ internalCols →
        cells.get? i = some (some s) →
        pyLower s ∉ ["", "nan", "none", "null"] ∧ s ∉ ["N/A", "n/a"]) := by
  intro hcl
  have h := hcl (fun _ => none) (fun _ => "VARCHAR") [("c", [some "NONE"])]
    "c" [some "NONE"] 0 "NONE" (by decide) (by decide) (by decide)
  exact h.1 (by decide)

/-! ## Claim C6 -/

/-- A cleaner that raises a non-`ValueError` exception on an empty region
grid and succeeds elsewhere. -/
def boomCleaner : List Row → Except PyExc TableOut := fun g =>
  if g.isEmpty then .error (.otherError "boom")
  else .ok ⟨g, [], [], 0, 0, 0⟩

/-- Claim C6, counterexample: it is not true that every table's unexpected
failure leaves one metadata entry per region: the per-region handler
catches only "ambiguous truth value" `ValueError`s, so `boomCleaner`'s
exception on the second of three regions propagates to the per-sheet
handler, which replaces all three entries by a single sheet-level `ERROR`
row — the third region is never processed. -/
theorem C6_counterexample_sibling_regions_lost :
    ¬ (∀ (cleaner : List Row → Except PyExc TableOut) (sheetName : String)
        (regions : List (List Row)),
        (processSheet cleaner sheetName regions).length = regions.length) := by
  intro hcl
  have h := hcl boomCleaner "s" [[[some "a"]], [], [[some "b"]]]
  rw [show (processSheet boomCleaner "s" [[[some "a"]], [], [[some "b"]]]).length = 1
    from by decide] at h
  exact absurd h (by decide)

/-! ## Label-dropping helper lemmas -/

/-- Dropping by collected index labels equals pointwise filtering when the
labels are distinct. -/
lemma filter_not_contains {α : Type} (pred : Nat × α → Bool) :
    ∀ (l : List (Nat × α)), (l.map Prod.fst).Nodup →
    l.filter (fun q => !(((l.filter pred).map Prod.fst).contains q.1)) =
      l.filter (fun q => !pred q)
  | [], _ => rfl
  | q :: rest, hnd => by
    have hnd1 : q.1 ∉ rest.map Prod.fst := by
      simp only [List.map_cons, List.nodup_cons] at hnd
      exact hnd.1
    have hnd2 : (rest.map Prod.fst).Nodup := by
      simp only [List.map_cons, List.nodup_cons] at hnd
      exact hnd.2
    have hqD : q.1 ∉ (rest.filter pred).map Prod.fst := by
      intro hmem
      obtain ⟨x, hx, hfst⟩ := List.mem_map.mp hmem
      exact hnd1 (List.mem_map.mpr ⟨x, (List.mem_filter.mp hx).1, hfst⟩)
    have keyne : ∀ x ∈ rest, x.1 ≠ q.1 := by
      intro x hx heq
      exact hnd1 (heq ▸ List.mem_map.mpr ⟨x, hx, rfl⟩)
    have htail0 : ∀ (b : List Nat),
        (∀ x ∈ rest, (b.contains x.1) =
          (((rest.filter pred).map Prod.fst).contains x.1)) →
        rest.filter (fun r => !(b.contains r.1)) =
          rest.filter (fun r => !(((rest.filter pred).map Prod.fst).contains r.1)) := by
      intro b h
      apply List.filter_congr
      intro x hx
      rw [h x hx]
    have ihr := filter_not_contains pred rest hnd2
    cases hp : pred q with
    | true =>
      have hD : ((q :: rest).filter pred).map Prod.fst =
          q.1 :: (rest.filter pred).map Prod.fst := by
        simp [List.filter_cons, hp]
      rw [hD, List.filter_cons, List.filter_cons, hp]
      have hc : ((q.1 :: (rest.filter pred).map Prod.fst).contains q.1) = true := by
        simp [List.contains_cons]
      rw [hc]
      simp only [Bool.not_true, if_neg (by simp : ¬(false = true))]
      rw [htail0 _ (by
        intro x hx
        simp [List.contains_cons, keyne x hx])]
      rw [ihr]
    | false =>
      have hD : ((q :: rest).filter pred).map Prod.fst =
          (rest.filter pred).map Prod.fst := by
        simp [List.filter_cons, hp]
      rw [hD, List.filter_cons, List.filter_cons, hp]
      have hc : (((rest.filter pred).map Prod.fst).contains q.1) = false := by
        simpa using hqD
      rw [hc]
      simp only [Bool.not_false, if_pos rfl]
      rw [htail0 _ (fun x _ => rfl), ihr]

/-- Filtering an enumeration on the values and dropping the labels is
filtering the underlying list. -/
lemma enumFrom_filter_map_snd {α : Type} (g : α → Bool) :
    ∀ (n : Nat) (l : List α),
    ((List.enumFrom n l).filter (fun q => g q.2)).map Prod.snd = l.filter g
  | _, [] => rfl
  | n, a :: rest => by
    simp only [List.enumFrom, List.filter_cons]
    cases hg : g a with
    | true => simp [enumFrom_filter_map_snd g (n + 1) rest, hg]
    | false => simp [enumFrom_filter_map_snd g (n + 1) rest, hg]

/-- Counting over an enumeration on the values counts the underlying
list. -/
lemma enumFrom_filter_length {α : Type} (g : α → Bool) :
    ∀ (n : Nat) (l : List α),
    ((List.enumFrom n l).filter (fun q => g q.2)).length = l.countP g
  | _, [] => rfl
  | n, a :: rest => by
    simp only [List.enumFrom, List.filter_cons, List.countP_cons]
    cases hg : g a with
    | true => simp [enumFrom_filter_length g (n + 1) rest, hg]
    | false => simp [enumFrom_filter_length g (n + 1) rest, hg]

/-- The labels of an enumeration are distinct. -/
lemma enum_keys_nodup {α : Type} (l : List α) : (l.enum.map Prod.fst).Nodup := by
  rw [List.enum_map_fst]
  exact List.nodup_range _

/-- The code's drop test coincides with the amended claim's wording. -/
lemma isRepeated_eq_amended (headers : List String) (row : Row) :
    isRepeatedHeaderRow headers row = amendedRepeatedHeaderRule headers row := by
  simp only [isRepeatedHeaderRow, amendedRepeatedHeaderRule, ratGe, Nat.mul_one]

/-- Claim C3 (amended): a body row is dropped by `detect_repeated_headers`
exactly when its value-set overlap ratio is `>= 0.70`, or its positional
match ratio is `>= 0.70` and its value-set size is at least `0.5 ×` the
header-set size (the claim's `overlap >= 0.35 × header-set size` is what
differs from the code); removal is unconditional. -/
theorem C3_amended_repeated_header_rule (rows : List Row) (headers : List String)
    (hne : pandasEmptyRows rows = false) (hh : headers ≠ [])
    (hhs : headerValueSet headers ≠ []) :
    detect_repeated_headers rows headers =
      (rows.filter (fun r => !amendedRepeatedHeaderRule headers r),
       rows.countP (fun r => amendedRepeatedHeaderRule headers r)) := by
  unfold detect_repeated_headers
  have h1 : (pandasEmptyRows rows || headers.isEmpty) = false := by
    rw [hne]
    simpa [List.isEmpty_iff] using hh
  have h2 : (headerValueSet headers).isEmpty = false := by
    simpa [List.isEmpty_iff] using hhs
  rw [h1, h2]
  simp only [Bool.false_eq_true, if_false]
  by_cases hEmpty :
      (((rows.enum.filter fun p => isRepeatedHeaderRow headers p.2).map Prod.fst).isEmpty)
  · rw [if_pos hEmpty]
    have hnil : ((rows.enum.filter fun p => isRepeatedHeaderRow headers p.2).map Prod.fst) = [] :=
      List.isEmpty_iff.mp hEmpty
    have hlen0 : rows.countP (fun r => isRepeatedHeaderRow headers r) = 0 := by
      have := congrArg List.length hnil
      simpa [enumFrom_filter_length (isRepeatedHeaderRow headers) 0 rows, List.enum] using this
    have hall : ∀ r ∈ rows, isRepeatedHeaderRow headers r = false := by
      have := List.countP_eq_zero.mp hlen0
      intro r hr
      simpa using this r hr
    simp only [Prod.mk.injEq]
    constructor
    · rw [List.filter_eq_self.mpr]
      intro r hr
      simp [isRepeated_eq_amended headers r ▸ hall r hr]
    · rw [← hlen0]
      exact (List.countP_congr (fun r hr => by rw [isRepeated_eq_amended])).symm
  · rw [if_neg hEmpty]
    simp only [Prod.mk.injEq]
    constructor
    · rw [filter_not_contains _ rows.enum (enum_keys_nodup rows)]
      have := enumFrom_filter_map_snd (fun r => !isRepeatedHeaderRow headers r) 0 rows
      simp only [List.enum] at this ⊢
      rw [this]
      simp only [isRepeated_eq_amended]
    · rw [List.length_map]
      have := enumFrom_filter_length (fun r => isRepeatedHeaderRow headers r) 0 rows
      simp only [List.enum] at this ⊢
      rw [this]
      exact List.countP_congr (fun r hr => by rw [isRepeated_eq_amended])

/-- Witness for the amended claim C3 at a concrete table. -/
theorem C3_amended_repeated_header_rule_witness :
    detect_repeated_headers [exRowC3] exHeadersC3 =
      ([exRowC3].filter (fun r => !amendedRepeatedHeaderRule exHeadersC3 r),
       [exRowC3].countP (fun r => amendedRepeatedHeaderRule exHeadersC3 r)) :=
  C3_amended_repeated_header_rule [exRowC3] exHeadersC3 (by decide) (by decide) (by decide)

/-- The code's flagged/high-confidence conjunction coincides with the
amended claim's wording. -/
lemma totalDrop_eq_amended (n lbl : Nat) (row : Row) :
    (isTotalFlagged row && isHighConfidenceTotal n lbl row) =
      (specTotalFlagRule row && amendedTotalDropRule n lbl row) := by
  simp only [isTotalFlagged, specTotalFlagRule, isHighConfidenceTotal,
    amendedTotalDropRule, hasSpecificTotalKw]

/-- A filler row without total keywords. -/
def fillerRowC4 : Row := [some "x", some "1", some "2"]

/-- Ten rows whose last row is a mostly-numeric `Grand Total` row. -/
def exLastTotalRows : List Row :=
  List.replicate 9 fillerRowC4 ++ [[some "Grand Total", some "100", some "200"]]

/-- Ten rows with a mixed-text `Grand Total` row in the middle. -/
def exMidTotalRows : List Row :=
  List.replicate 4 fillerRowC4 ++ [[some "Grand Total", some "abc", some "def"]] ++
    List.replicate 5 fillerRowC4

/-- Claim C4 (amended): `detect_total_rows` flags exactly the
keyword-containing rows (kept rows carry the tag), and removes a flagged
row exactly when its text contains one of the specific keywords
`grand total`/`subtotal`/`grand_total` (the claim named only the first
two) and either `>= 70%` of its non-blank values are numeric or it lies in
the last `10%` of rows by position; in particular a mostly-numeric
`Grand Total` last row of ten is dropped, while a mixed-text middle
`Grand Total` row is flagged and retained. -/
theorem C4_amended_total_drop_rule :
    (∀ rows : List Row,
      detect_total_rows rows.enum =
        ((rows.enum.filter (fun q =>
            !(specTotalFlagRule q.2 && amendedTotalDropRule rows.length q.1 q.2))).map
            (fun q => (q.1, q.2, specTotalFlagRule q.2)),
         rows.countP specTotalFlagRule,
         rows.enum.countP (fun q =>
            specTotalFlagRule q.2 && amendedTotalDropRule rows.length q.1 q.2))) ∧
    (detect_total_rows exLastTotalRows.enum).1.length = 9 ∧
    (detect_total_rows exLastTotalRows.enum).2.2 = 1 ∧
    (4, [some "Grand Total", some "abc", some "def"], true) ∈
      (detect_total_rows exMidTotalRows.enum).1 ∧
    (detect_total_rows exMidTotalRows.enum).2.2 = 0 := by
  refine ⟨?_, by decide, by decide, by decide, by decide⟩
  intro rows
  unfold detect_total_rows
  by_cases hrows : rows = []
  · subst hrows
    decide
  · have henil : rows.enum = [] ↔ rows = [] := by
      cases rows <;> simp [List.enum]
    rw [if_neg (by simpa [List.isEmpty_iff, henil] using hrows)]
    simp only [Prod.mk.injEq]
    refine ⟨?_, ?_, ?_⟩
    · rw [List.filter_map]
      have hcomp : ((fun t : Nat × Row × Bool =>
          !((((rows.enum.filter fun p =>
            isTotalFlagged p.2 && isHighConfidenceTotal rows.enum.length p.1 p.2).map
              Prod.fst)).contains t.1)) ∘
          (fun p : Nat × Row => (p.1, p.2, isTotalFlagged p.2))) =
          (fun q : Nat × Row =>
            !((((rows.enum.filter fun p =>
              isTotalFlagged p.2 && isHighConfidenceTotal rows.enum.length p.1 p.2).map
                Prod.fst)).contains q.1)) := rfl
      rw [hcomp,
        filter_not_contains
          (fun p => isTotalFlagged p.2 && isHighConfidenceTotal rows.enum.length p.1 p.2)
          rows.enum (enum_keys_nodup rows)]
      simp only [List.enum_length, totalDrop_eq_amended]
      rfl
    · have := enumFrom_filter_length (fun r => isTotalFlagged r) 0 rows
      simp only [List.enum] at this ⊢
      rw [List.length_map, this]
      rfl
    · rw [List.length_map, List.countP_eq_length_filter]
      simp only [List.enum_length, totalDrop_eq_amended]

/-- Claim C5 (amended): `sanitize_for_sql` replaces exactly the literal
values `""`, `"nan"`, `"None"`, `"null"`, `"NULL"`, `"NaN"`, `"N/A"`,
`"n/a"` — matched exactly, not case-insensitively — with the null
sentinel, in every data column independent of its recommended type; every
type branch preserves the sentinel. -/
theorem C5_amended_exact_null_literals
    (flexi : String → Option PyDateTime) (typeOf : String → String)
    (cols : List (String × List Cell)) (j : Nat) (name : String)
    (cells : List Cell) (i : Nat) (s : String)
    (hj : cols.get? j = some (name, cells)) (hname : name ∉ internalCols)
    (hi : cells.get? i = some (some s)) (hs : s ∈ sqlNullLiterals) :
    ∃ outCells,
      (sanitize_for_sql flexi typeOf cols).get? j = some (name, outCells) ∧
        outCells.get? i = some none := by
  have hmem : (name, cells) ∈ cols := List.get?_mem hj
  have hcne : cells ≠ [] := by
    intro h
    rw [h] at hi
    simp at hi
  have hnotall : cols.all (fun c => c.2.isEmpty) = false := by
    rw [Bool.eq_false_iff]
    intro hall
    have := List.all_eq_true.mp hall _ hmem
    simp only [List.isEmpty_iff] at this
    exact hcne this
  have hv : (replaceNullLikes cells).get? i = some none := by
    unfold replaceNullLikes
    rw [List.get?_map, hi]
    simp [hs]
  refine ⟨sanitizeColumn flexi (typeOf name) cells, ?_, ?_⟩
  · unfold sanitize_for_sql
    rw [hnotall]
    simp only [Bool.false_eq_true, if_false]
    rw [List.get?_map, hj]
    simp [hname]
  · unfold sanitizeColumn
    split_ifs with hd hva hnum
    · unfold standardize_dates
      rw [List.get?_map, hv]
      rfl
    · rw [List.get?_map, hv]
      rfl
    · unfold validate_numeric_values
      rw [List.get?_map, hv]
      rfl
    · exact hv

/-- Witness for the amended claim C5: on a one-column table the literal
`"nan"` is replaced by the null sentinel. -/
theorem C5_amended_exact_null_literals_witness :
    ∃ outCells,
      (sanitize_for_sql (fun _ => none) (fun _ => "VARCHAR")
          [("c", [some "nan"])]).get? 0 = some ("c", outCells) ∧
        outCells.get? 0 = some none :=
  C5_amended_exact_null_literals (fun _ => none) (fun _ => "VARCHAR")
    [("c", [some "nan"])] 0 "c" [some "nan"] 0 "nan"
    (by decide) (by decide) (by decide) (by decide)

/-- String append acts as list append on the character data. -/
lemma strdata_append (a b : String) : (a ++ b).data = a.data ++ b.data := rfl

/-- If stripping leaves nothing, every character was whitespace. -/
lemma pyStripList_nil (l : List Char) (h : pyStripList l = []) :
    ∀ x ∈ l, isPyWs x = true := by
  unfold pyStripList at h
  have h1 : (l.dropWhile isPyWs).reverse.dropWhile isPyWs = [] := by
    have := congrArg List.reverse h
    simpa using this
  have h2 : ∀ x ∈ (l.dropWhile isPyWs).reverse, isPyWs x = true :=
    List.dropWhile_eq_nil_iff.mp h1
  have h3 : ∀ x ∈ l.dropWhile isPyWs, isPyWs x = true := by
    intro x hx
    exact h2 x (List.mem_reverse.mpr hx)
  intro x hx
  rw [← List.takeWhile_append_dropWhile (p := isPyWs) (l := l)] at hx
  rcases List.mem_append.mp hx with h4 | h4
  · exact List.mem_takeWhile_imp h4
  · exact h3 x h4

/-- `'D'` heads the character data of a table-level error message. -/
lemma tableErrorMsg_head (a b : String) : 'D' ∈ (tableErrorMsg a b).data := by
  unfold tableErrorMsg
  simp only [strdata_append]
  simp

/-- A table-level error message never strips to the empty string. -/
lemma pyStrip_tableErrorMsg_ne (a b : String) : pyStrip (tableErrorMsg a b) ≠ "" := by
  intro h
  have hdata : pyStripList (tableErrorMsg a b).data = [] := congrArg String.data h
  have := pyStripList_nil _ hdata 'D' (tableErrorMsg_head a b)
  exact absurd this (by decide)

/-- A table-level error message never lowercases to `"nan"`. -/
lemma pyLower_tableErrorMsg_ne (a b : String) : pyLower (tableErrorMsg a b) ≠ "nan" := by
  intro h
  have hdata := congrArg (fun s => s.data.length) h
  unfold tableErrorMsg pyLower at hdata
  simp only [strdata_append, List.length_map, List.length_append] at hdata
  simp at hdata

/-- A table-level error message is nonempty. -/
lemma tableErrorMsg_ne (a b : String) : tableErrorMsg a b ≠ "" := by
  intro h
  have hdata := congrArg (fun s => s.data.length) h
  unfold tableErrorMsg at hdata
  simp only [strdata_append, List.length_append] at hdata
  simp at hdata

/-- The per-region loop under the hypothesis that every raised exception is
of the caught kind: it returns one entry per region, error entries being
empty-bodied with the table-level error message recorded. -/
lemma processRegions_ok (cleaner : List Row → Except PyExc TableOut)
    (sheetName : String) (total : Nat) :
    ∀ (regions : List (List Row)) (idx : Nat),
      (∀ g ∈ regions, ∀ e, cleaner g = .error e → caughtAtTableLevel e = true) →
      ∃ rows, processRegions cleaner sheetName total idx regions = .ok rows ∧
        rows.length = regions.length ∧
        (∀ i g, regions.get? i = some g →
          ∃ entry, rows.get? i = some entry ∧
            entry.tabName = mkVirtualName sheetName total (idx + i) ∧
            (∀ e, cleaner g = .error e →
              entry.body = [] ∧ entry.cleanStatus = "OK" ∧
              entry.errorsStr = tableErrorMsg sheetName (excMessage e)))
  | [], idx, _ => ⟨[], rfl, rfl, by intro i g h; simp at h⟩
  | g :: rest, idx, hcau => by
    obtain ⟨tailRows, htail, hlen, hidx⟩ :=
      processRegions_ok cleaner sheetName total rest (idx + 1)
        (fun g2 hg2 => hcau g2 (List.mem_cons_of_mem _ hg2))
    cases hc : cleaner g with
    | ok t =>
      refine ⟨{ tabName := mkVirtualName sheetName total idx
                cleanStatus := "OK"
                errorsStr := joinSemicolon t.errors
                warningsStr := joinSemicolon t.warnings
                exactDuplicateRows := t.dupRows
                totalsRowsDropped := t.totalsDropped
                repeatedHeaderRowsDropped := t.repeatedDropped
                body := t.body } :: tailRows, ?_, ?_, ?_⟩
      · simp only [processRegions, hc, htail, Except.map]
      · simp [hlen]
      · intro i g2 hg2
        match i, hg2 with
        | 0, hg2 =>
          refine ⟨_, rfl, by simp, ?_⟩
          intro e he
          have hgg : g = g2 := by
            simp only [List.get?, Option.some.injEq] at hg2
            exact hg2
          rw [← hgg, hc] at he
          exact absurd he (by simp)
        | (i' + 1), hg2 =>
          simp only [List.get?] at hg2 ⊢
          obtain ⟨entry, h1, h2, h3⟩ := hidx i' g2 hg2
          exact ⟨entry, h1, by rw [h2]; congr 1; omega, h3⟩
    | error e =>
      have hcaught : caughtAtTableLevel e = true := hcau g (List.mem_cons_self _ _) e hc
      refine ⟨{ tabName := mkVirtualName sheetName total idx
                cleanStatus := "OK"
                errorsStr := tableErrorMsg sheetName (excMessage e)
                warningsStr := ""
                exactDuplicateRows := 0
                totalsRowsDropped := 0
                repeatedHeaderRowsDropped := 0
                body := [] } :: tailRows, ?_, ?_, ?_⟩
      · simp only [processRegions, hc, hcaught, if_true, htail, Except.map]
      · simp [hlen]
      · intro i g2 hg2
        match i, hg2 with
        | 0, hg2 =>
          refine ⟨_, rfl, by simp, ?_⟩
          intro e2 he2
          have hgg : g = g2 := by
            simp only [List.get?, Option.some.injEq] at hg2
            exact hg2
          rw [← hgg, hc] at he2
          have : e = e2 := by
            injection he2
          subst this
          exact ⟨rfl, rfl, rfl⟩
        | (i' + 1), hg2 =>
          simp only [List.get?] at hg2 ⊢
          obtain ⟨entry, h1, h2, h3⟩ := hidx i' g2 hg2
          exact ⟨entry, h1, by rw [h2]; congr 1; omega, h3⟩

/-- Claim C6 (amended): only an "ambiguous truth value" `ValueError` is
caught per region — under that condition every region of the sheet yields
its own metadata entry, a failing region's entry being empty-bodied and
flagged `ERROR - Check tab`; any other exception instead aborts the
remaining regions of the same sheet (see the counterexample), sibling
sheets being unaffected. -/
theorem C6_amended_region_error_containment
    (cleaner : List Row → Except PyExc TableOut) (sheetName : String)
    (regions : List (List Row))
    (hcau : ∀ g ∈ regions, ∀ e, cleaner g = .error e → caughtAtTableLevel e = true) :
    (processSheet cleaner sheetName regions).length = regions.length ∧
      (∀ i g, regions.get? i = some g →
        ∃ entry, (processSheet cleaner sheetName regions).get? i = some entry ∧
          entry.tabName = mkVirtualName sheetName regions.length (1 + i) ∧
          (∀ e, cleaner g = .error e →
            entry.body = [] ∧ qualityFlag entry = "ERROR - Check tab")) := by
  obtain ⟨rows, hok, hlen, hidx⟩ :=
    processRegions_ok cleaner sheetName regions.length regions 1 hcau
  unfold processSheet
  rw [hok]
  refine ⟨hlen, ?_⟩
  intro i g hg
  obtain ⟨entry, h1, h2, h3⟩ := hidx i g hg
  refine ⟨entry, h1, h2, ?_⟩
  intro e he
  obtain ⟨hb, hst, herr⟩ := h3 e he
  refine ⟨hb, ?_⟩
  unfold qualityFlag
  rw [hst, herr]
  rw [if_neg (by simp)]
  rw [if_pos (by
    simp only [Bool.and_eq_true, decide_eq_true_eq]
    exact ⟨⟨tableErrorMsg_ne sheetName (excMessage e),
      pyStrip_tableErrorMsg_ne sheetName (excMessage e)⟩,
      pyLower_tableErrorMsg_ne sheetName (excMessage e)⟩)]

/-- A cleaner whose only failure mode is the caught "ambiguous truth
value" `ValueError` (raised on an empty region grid). -/
def ambCleaner : List Row → Except PyExc TableOut := fun g =>
  if g.isEmpty then
    .error (.valueError "The truth value of a Series is ambiguous")
  else .ok ⟨g, [], [], 0, 0, 0⟩

/-- Witness for the amended claim C6: with only caught failures, a sheet of
three regions (the second failing) produces three entries. -/
theorem C6_amended_region_error_containment_witness :
    (processSheet ambCleaner "s" [[[some "a"]], [], [[some "b"]]]).length =
        ([[[some "a"]], [], [[some "b"]]] : List (List Row)).length ∧
      (∀ i g, ([[[some "a"]], [], [[some "b"]]] : List (List Row)).get? i = some g →
        ∃ entry, (processSheet ambCleaner "s" [[[some "a"]], [], [[some "b"]]]).get? i = some entry ∧
          entry.tabName = mkVirtualName "s" ([[[some "a"]], [], [[some "b"]]] : List (List Row)).length (1 + i) ∧
          (∀ e, ambCleaner g = .error e →
            entry.body = [] ∧ qualityFlag entry = "ERROR - Check tab")) :=
  C6_amended_region_error_containment ambCleaner "s" [[[some "a"]], [], [[some "b"]]]
    (by
      intro g hg e he
      simp only [List.mem_cons, List.not_mem_nil, or_false] at hg
      rcases hg with h | h | h
      · subst h
        simp [ambCleaner] at he
      · subst h
        simp only [ambCleaner, List.isEmpty_nil, if_true] at he
        have : PyExc.valueError "The truth value of a Series is ambiguous" = e := by
          injection he
        rw [← this]
        decide
      · subst h
        simp [ambCleaner] at he)

/-! ## Claim C7 -/

/-- The forward-fill scan preserves the column length. -/
lemma fillColGo_length (l : List String) : ∀ (last : Option String),
    (fillColGo last l).length = l.length := by
  induction l with
  | nil => intro last; rfl
  | cons s rest ih =>
      intro last
      simp only [fillColGo]
      split
      · cases last with
        | some lv => simp [ih]
        | none => simp [ih]
      · simp [ih]

/-- `fill_down_context` preserves the row count. -/
lemma fill_down_context_length (headers ctx : List String)
    (rows : List (Nat × Row × Bool)) :
    (fill_down_context headers ctx rows).length = rows.length := by
  unfold fill_down_context
  split
  · rfl
  · rename_i hguard
    clear hguard
    induction ctx generalizing rows with
    | nil => rfl
    | cons c cs ih =>
        rw [List.foldl_cons]
        rw [ih]
        cases hf : firstColIdx headers c with
        | none => simp [hf]
        | some j =>
            simp only [hf, List.length_map, List.length_zip, fillColGo_length,
              tableColumn]
            simp

/-- `detect_repeated_headers` never adds a row. -/
lemma detect_repeated_headers_length (rows : List Row) (headers : List String) :
    (detect_repeated_headers rows headers).1.length ≤ rows.length := by
  unfold detect_repeated_headers
  split
  · exact le_refl _
  · split
    · exact le_refl _
    · dsimp only
      split
      · exact le_refl _
      · simp only [List.length_map]
        calc (rows.enum.filter _).length ≤ rows.enum.length :=
              List.length_filter_le _ _
          _ = rows.length := List.enum_length

/-- `detect_total_rows` never adds a row. -/
lemma detect_total_rows_length (l : List LRow) :
    (detect_total_rows l).1.length ≤ l.length := by
  unfold detect_total_rows
  split
  · simp
  · simp only []
    calc (List.filter _ (l.map _)).length ≤ (l.map _).length :=
          List.length_filter_le _ _
      _ = l.length := List.length_map _ _

/-- Claim C7 (confirmed): for every input region, `clean_single_sheet`
reports `rows_out <= rows_in` — every stage only removes or rewrites body
rows and never adds one. -/
theorem C7_rows_out_le_rows_in (grid : List Row) :
    (clean_single_sheet grid).2.2.rows_out ≤ (clean_single_sheet grid).2.2.rows_in := by
  simp only [clean_single_sheet]
  split
  · simp
  · dsimp only
    rw [List.length_map]
    split
    · simp
    · split
      · rename_i hemp
        rw [List.isEmpty_iff.mp hemp]
        exact Nat.zero_le _
      · rw [fill_down_context_length]
        apply le_trans (detect_total_rows_length _)
        apply le_trans (List.length_filter_le _ _)
        rw [List.enum_length]
        apply le_trans (detect_repeated_headers_length _ _)
        rw [List.length_map]
        exact List.length_filter_le _ _

/-! ## Claim C8 -/

/-- Claim C8 (confirmed): on every non-empty column, `analyze_column_types`
recommends by thresholds in the fixed order date `>= 80%`
(`TIMESTAMP_NTZ` when a match had a time part, else `DATE`), else integer
`>= 90%`, else float `>= 80%`, else `VARCHAR`; in particular
`["1","2","3","x"]` (75% integer) is `VARCHAR` and `["1","2","3","4"]` is
`INTEGER`. -/
theorem C8_type_threshold_order :
    (∀ cells : List Cell, cells.filterMap id ≠ [] →
      (analyzeColumn cells).recommended_type =
        specTypeRecommendation (cells.filterMap id).length
          (analyzeCounts (cells.filterMap id)).1
          (analyzeCounts (cells.filterMap id)).2.1
          (analyzeCounts (cells.filterMap id)).2.2.1
          (analyzeCounts (cells.filterMap id)).2.2.2) ∧
    (analyzeColumn [some "1", some "2", some "3", some "x"]).recommended_type =
      "VARCHAR" ∧
    (analyzeColumn [some "1", some "2", some "3", some "4"]).recommended_type =
      "INTEGER" := by
  refine ⟨?_, by decide, by decide⟩
  intro cells hne
  unfold analyzeColumn specTypeRecommendation
  rw [if_neg (by simpa [List.isEmpty_iff] using hne)]
  dsimp only
  split_ifs with h1 h2 h3 h4 h5 h6 h7 <;>
    first
      | rfl
      | (exfalso
         simp only [ratGe, Nat.one_mul, decide_eq_true_eq] at *
         omega)

/-- Witness for claim C8 at the 75%-integer column. -/
theorem C8_type_threshold_order_witness :
    ([some "1", some "2", some "3", some "x"] : List Cell).filterMap id ≠ [] ∧
      (analyzeColumn [some "1", some "2", some "3", some "x"]).recommended_type =
        specTypeRecommendation
          (([some "1", some "2", some "3", some "x"] : List Cell).filterMap id).length
          (analyzeCounts (([some "1", some "2", some "3", some "x"] : List Cell).filterMap id)).1
          (analyzeCounts (([some "1", some "2", some "3", some "x"] : List Cell).filterMap id)).2.1
          (analyzeCounts (([some "1", some "2", some "3", some "x"] : List Cell).filterMap id)).2.2.1
          (analyzeCounts (([some "1", some "2", some "3", some "x"] : List Cell).filterMap id)).2.2.2 :=
  ⟨by decide, C8_type_threshold_order.1 [some "1", some "2", some "3", some "x"] (by decide)⟩

/-! ## Claim C9 -/

/-- `getLast?` of a cons in `getD` form. -/
lemma getLast?_cons_getD {α : Type} (a : α) (l : List α) :
    (a :: l).getLast? = some (l.getLast?.getD a) := by
  induction l generalizing a with
  | nil => rfl
  | cons b l2 ih =>
      rw [List.getLast?_cons_cons, ih b]
      simp

/-- The forward-fill scan, characterised cell by cell: a blank cell takes
the nearest preceding non-blank stripped value, the initial accumulator
value when there is none; a non-blank cell is rewritten to its stripped
value. -/
lemma fillColGo_get? (vals : List String) :
    ∀ (last : Option String) (i : Nat) (s : String), vals.get? i = some s →
    (fillColGo last vals).get? i =
      some (if specBlankVal s = true then
              (((vals.take i).filterMap specNonBlankVal).getLast?).getD (last.getD s)
            else pyStrip s) := by
  induction vals with
  | nil => intro last i s h; simp at h
  | cons v rest ih =>
      intro last i s h
      match i with
      | 0 =>
          have hv : v = s := by
            simp only [List.get?, Option.some.injEq] at h
            exact h
          subst hv
          simp only [List.take_zero, List.filterMap_nil, List.getLast?_nil,
            Option.getD_none]
          simp only [fillColGo, specBlankVal]
          split
          · cases last with
            | some lv => simp
            | none => simp
          · simp
      | (i' + 1) =>
          have hr : rest.get? i' = some s := h
          simp only [fillColGo]
          split
          · rename_i hb
            have hbv : specBlankVal v = true := hb
            have hnb : specNonBlankVal v = none := by
              simp [specNonBlankVal, hbv]
            cases last with
            | some lv =>
                have := ih (some lv) i' s hr
                simp only [List.get?, this, List.take_succ_cons,
                  List.filterMap_cons, hnb]
            | none =>
                have := ih none i' s hr
                simp only [List.get?, this, List.take_succ_cons,
                  List.filterMap_cons, hnb]
          · rename_i hb
            have hbv : specBlankVal v = false := by
              simpa [specBlankVal] using hb
            have hnb : specNonBlankVal v = some (pyStrip v) := by
              simp [specNonBlankVal, hbv]
            have := ih (some (pyStrip v)) i' s hr
            simp only [List.get?, this, List.take_succ_cons,
              List.filterMap_cons, hnb]
            rw [getLast?_cons_getD]
            cases hlast : ((rest.take i').filterMap specNonBlankVal).getLast? with
            | some w => simp [hlast]
            | none => simp [hlast]

/-- Claim C9 (confirmed): the Context Filler's scan replaces each blank
cell with the nearest preceding non-blank (stripped) value and leaves
blanks without one untouched; the two cited example columns behave as
specified, also through `fill_down_context` on a one-column table. -/
theorem C9_fill_down_scan :
    (∀ (vals : List String) (i : Nat) (s : String), vals.get? i = some s →
      (fillColGo none vals).get? i =
        some (if specBlankVal s = true then (lastNonBlankBefore vals i).getD s
              else pyStrip s)) ∧
    fillColGo none ["A", "", "", "B", ""] = ["A", "A", "A", "B", "B"] ∧
    fillColGo none ["", "A"] = ["", "A"] ∧
    fill_down_context ["c"] ["c"]
        [(0, [some "A"], false), (1, [some ""], false), (2, [some ""], false),
         (3, [some "B"], false), (4, [some ""], false)] =
      [(0, [some "A"], false), (1, [some "A"], false), (2, [some "A"], false),
       (3, [some "B"], false), (4, [some "B"], false)] := by
  refine ⟨?_, by decide, by decide, by decide⟩
  intro vals i s h
  have := fillColGo_get? vals none i s h
  simpa [lastNonBlankBefore] using this

/-- Witness for claim C9 at the second cell of the first example column. -/
theorem C9_fill_down_scan_witness :
    (["A", "", "", "B", ""].get? 1 = some "") ∧
      (fillColGo none ["A", "", "", "B", ""]).get? 1 =
        some (if specBlankVal "" = true then
                (lastNonBlankBefore ["A", "", "", "B", ""] 1).getD ""
              else pyStrip "") :=
  ⟨by decide, C9_fill_down_scan.1 ["A", "", "", "B", ""] 1 "" (by decide)⟩

/-! ## Claim C10 -/

/-- A digit is a lowercase fixed point. -/
lemma digit_toLower_self (c : Char) (h : c.isDigit = true) : c.toLower = c := by
  unfold Char.toLower
  rw [if_neg]
  have h2 : 48 ≤ c.toNat ∧ c.toNat ≤ 57 := by
    have := h
    simp only [Char.isDigit] at this
    constructor
    · exact Nat.le_of_lt_succ (Nat.lt_succ_of_le (by
        have := Bool.and_eq_true _ _ ▸ this
        simp only [decide_eq_true_eq] at this
        exact this.1))
    · have := Bool.and_eq_true _ _ ▸ this
      simp only [decide_eq_true_eq] at this
      exact this.2
  omega

/-- A successful digit-group read means its input began with a digit. -/
lemma takeDigitsU_digit (l : List Char) (p : List Char × List Char)
    (h : takeDigitsU l = some p) : ∃ c ∈ l, c.isDigit = true := by
  unfold takeDigitsU at h
  split at h
  · rename_i c rest
    split at h
    · rename_i hcd
      exact ⟨c, List.mem_cons_self _ _, hcd⟩
    · simp at h
  · simp at h

/-- A parsed float literal body contains a digit. -/
lemma parseFloatBody_digit (l : List Char) (m e : Int)
    (h : parseFloatBody l = some (m, e)) : ∃ c ∈ l, c.isDigit = true := by
  unfold parseFloatBody at h
  split at h
  · rename_i ip rest heq
    exact takeDigitsU_digit l (ip, rest) heq
  · split at h
    · split at h
      · rename_i heq3
        obtain ⟨d, hd, hdd⟩ := takeDigitsU_digit _ _ heq3
        exact ⟨d, List.mem_cons_of_mem _ hd, hdd⟩
      · simp at h
    · simp at h

/-- `parseSign` only drops a leading sign character. -/
lemma parseSign_mem (l : List Char) (b : Bool) (r : List Char)
    (h : parseSign l = (b, r)) : ∀ c ∈ r, c ∈ l := by
  unfold parseSign at h
  split at h
  · rename_i rest
    injection h with h1 h2
    subst h2
    intro c hc
    exact List.mem_cons_of_mem _ hc
  · rename_i rest
    injection h with h1 h2
    subst h2
    intro c hc
    exact List.mem_cons_of_mem _ hc
  · injection h with h1 h2
    subst h2
    exact fun c hc => hc

/-- Stripping only removes characters. -/
lemma pyStripList_mem (l : List Char) : ∀ c ∈ pyStripList l, c ∈ l := by
  intro c hc
  unfold pyStripList at hc
  rw [List.mem_reverse] at hc
  have h1 := (List.dropWhile_sublist (l := (l.dropWhile isPyWs).reverse)
    (p := isPyWs)).mem hc
  rw [List.mem_reverse] at h1
  exact (List.dropWhile_sublist (l := l) (p := isPyWs)).mem h1

/-- A finite `float(...)` parse means the input contained a digit. -/
lemma pyFloatParse_finite_digit (u : String) (m e : Int)
    (h : pyFloatParse u = some (.finite m e)) : ∃ c ∈ u.data, c.isDigit = true := by
  unfold pyFloatParse at h
  dsimp only at h
  rcases hps : parseSign (pyStripList u.data) with ⟨b, r⟩
  rw [hps] at h
  dsimp only at h
  split at h
  · simp at h
  · split at h
    · simp at h
    · split at h
      · rename_i m0 e0 heq
        obtain ⟨d, hd, hdd⟩ := parseFloatBody_digit r m0 e0 heq
        have hd2 := parseSign_mem _ _ _ hps d hd
        exact ⟨d, pyStripList_mem _ d hd2, hdd⟩
      · simp at h

/-- A string whose lowercase form is `nan`, `none` or `null` contains no
digit. -/
lemma lower3_no_digit (t : String)
    (h : pyLower t ∈ (["nan", "none", "null"] : List String)) :
    ∀ c ∈ t.data, c.isDigit = false := by
  intro c hc
  by_contra hcd
  rw [Bool.not_eq_false] at hcd
  have hmap : c.toLower ∈ (pyLower t).data := List.mem_map_of_mem _ hc
  rw [digit_toLower_self c hcd] at hmap
  simp only [List.mem_cons, List.not_mem_nil, or_false] at h
  rcases h with h | h | h <;> rw [h] at hmap <;> fin_cases hmap <;>
    exact absurd hcd (by decide)

/-- Claim C10 (confirmed): in the SQL Sanitizer, a value of an
`INTEGER`-recommended column that parses (after removing `, $ %`) to a
finite non-integral number `m * 10 ^ e` is rewritten to the decimal string
of its integer part truncated toward zero — e.g. `"12.7"` becomes `"12"` —
so the fractional part is silently discarded. -/
theorem C10_integer_truncation :
    (∀ (flexi : String → Option PyDateTime) (typeOf : String → String)
       (cols : List (String × List Cell)) (j : Nat) (name : String)
       (cells : List Cell) (i : Nat) (s : String) (m e : Int),
      typeOf name = "INTEGER" → name ∉ internalCols →
      cols.get? j = some (name, cells) → cells.get? i = some (some s) →
      pyFloatParse (pyStrip (removeFmtChars (pyStrip s))) = some (.finite m e) →
      e < 0 → ¬ ((10 : Int) ^ (-e).toNat ∣ m) →
      ∃ outCells,
        (sanitize_for_sql flexi typeOf cols).get? j = some (name, outCells) ∧
          outCells.get? i = some (some (toString (pyTruncInt m e)))) ∧
    validate_numeric_values "INTEGER" [some "12.7"] = [some "12"] := by
  refine ⟨?_, by decide⟩
  intro flexi typeOf cols j name cells i s m e hT hname hj hi hparse _he _hdvd
  obtain ⟨d, hd, hdd⟩ := pyFloatParse_finite_digit _ m e hparse
  have hdStrip : d ∈ (pyStrip s).data := by
    have h2 := pyStripList_mem _ d hd
    have h3 : (removeFmtChars (pyStrip s)).data =
        (pyStrip s).data.filter (fun c => c ≠ ',' && c ≠ '$' && c ≠ '%') := rfl
    rw [h3] at h2
    exact (List.mem_filter.mp h2).1
  have hdS : d ∈ s.data := pyStripList_mem _ d hdStrip
  have hguard : ¬ ((pyStrip s = "" || pyLower (pyStrip s) ∈ ["nan", "none", "null"]) = true) := by
    simp only [Bool.or_eq_true, decide_eq_true_eq]
    push_neg
    constructor
    · intro hh
      rw [hh] at hdStrip
      simp at hdStrip
    · intro hh
      have := lower3_no_digit (pyStrip s) hh d hdStrip
      rw [hdd] at this
      exact absurd this (by decide)
  have hs8 : s ∉ sqlNullLiterals := by
    intro hmem
    have hnod : ∀ x ∈ sqlNullLiterals, ∀ c ∈ x.data, c.isDigit = false := by decide
    have := hnod s hmem d hdS
    rw [hdd] at this
    exact absurd this (by decide)
  have hmem : (name, cells) ∈ cols := List.get?_mem hj
  have hcne : cells ≠ [] := by
    intro h
    rw [h] at hi
    simp at hi
  have hnotall : cols.all (fun c => c.2.isEmpty) = false := by
    rw [Bool.eq_false_iff]
    intro hall
    have := List.all_eq_true.mp hall _ hmem
    simp only [List.isEmpty_iff] at this
    exact hcne this
  have hv : (replaceNullLikes cells).get? i = some (some s) := by
    unfold replaceNullLikes
    rw [List.get?_map, hi]
    simp [hs8]
  have hcell : validateNumericCell "INTEGER" (some s) =
      some (toString (pyTruncInt m e)) := by
    unfold validateNumericCell
    dsimp only
    rw [if_neg hguard]
    simp [hparse]
  refine ⟨sanitizeColumn flexi (typeOf name) cells, ?_, ?_⟩
  · unfold sanitize_for_sql
    rw [hnotall]
    simp only [Bool.false_eq_true, if_false]
    rw [List.get?_map, hj]
    dsimp only [Option.map]
    rw [if_neg hname]
  · have hcol : sanitizeColumn flexi (typeOf name) cells =
        validate_numeric_values "INTEGER" (replaceNullLikes cells) := by
      rw [hT]
      unfold sanitizeColumn
      rw [if_neg (by decide), if_neg (by decide), if_pos (by decide)]
    rw [hcol]
    unfold validate_numeric_values
    rw [List.get?_map, hv]
    dsimp only [Option.map]
    exact congrArg some hcell

/-- Witness for claim C10: the cell `"12.7"` of an `INTEGER` column is
rewritten to `"12"` by `sanitize_for_sql`. -/
theorem C10_integer_truncation_witness :
    ∃ outCells,
      (sanitize_for_sql (fun _ => none) (fun _ => "INTEGER")
          [("c", [some "12.7"])]).get? 0 = some ("c", outCells) ∧
        outCells.get? 0 = some (some (toString (pyTruncInt 127 (-1)))) :=
  C10_integer_truncation.1 (fun _ => none) (fun _ => "INTEGER")
    [("c", [some "12.7"])] 0 "c" [some "12.7"] 0 "12.7" 127 (-1)
    rfl (by decide) (by decide) (by decide) (by decide) (by decide) (by decide)

/-! ## Claim C2 (amended): identifier shape invariant -/

/-- `isLower` through `toNat`. -/
lemma isLower_eq (c : Char) :
    c.isLower = (decide (97 ≤ c.toNat) && decide (c.toNat ≤ 122)) := rfl

/-- `isDigit` through `toNat`. -/
lemma isDigit_eq (c : Char) :
    c.isDigit = (decide (48 ≤ c.toNat) && decide (c.toNat ≤ 57)) := rfl

/-- `isUpper` through `toNat`. -/
lemma isUpper_eq (c : Char) :
    c.isUpper = (decide (65 ≤ c.toNat) && decide (c.toNat ≤ 90)) := rfl

/-- `Char.ofNatAux` keeps the numeric value. -/
lemma toNat_ofNatAux (n : Nat) (h : n.isValidChar) : (Char.ofNatAux n h).toNat = n := by
  rfl

/-- A word character that survived `Char.toLower` is in `[a-z0-9_]`. -/
lemma toLower_wordChar (c : Char) :
    isWordChar c.toLower = true → goodIdentChar c.toLower = true := by
  intro hw
  by_cases h : c.toNat ≥ 65 ∧ c.toNat ≤ 90
  · have hlow : c.toLower = Char.ofNat (c.toNat + 32) := by
      unfold Char.toLower
      simp [h]
    have hv : (c.toNat + 32).isValidChar := by
      left
      omega
    have hval : (c.toLower).toNat = c.toNat + 32 := by
      rw [hlow, Char.ofNat, dif_pos hv]
      exact toNat_ofNatAux _ hv
    simp only [goodIdentChar, isLower_eq, hval]
    simp
    omega
  · have hlow : c.toLower = c := by
      unfold Char.toLower
      simp [h]
    rw [hlow] at hw ⊢
    simp only [isWordChar, Char.isAlphanum, Char.isAlpha, isUpper_eq,
      isLower_eq, isDigit_eq] at hw
    simp only [goodIdentChar, isLower_eq, isDigit_eq]
    simp at hw ⊢
    rcases hw with ((h1 | h2) | h3) | h4
    · omega
    · tauto
    · tauto
    · tauto

/-- All characters of the whitespace-collapsed, lowercased, word-filtered
form of a string are in `[a-z0-9_]`. -/
lemma collapse_filter_good (l : List Char) : ∀ (b : Bool),
    ((collapseWsGo b (l.map Char.toLower)).filter isWordChar).all goodIdentChar = true := by
  induction l with
  | nil => intro b; rfl
  | cons c rest ih =>
      intro b
      simp only [List.map_cons, collapseWsGo]
      split
      · split
        · exact ih true
        · simp only [List.filter_cons]
          rw [if_pos (by decide)]
          simp only [List.all_cons]
          rw [show goodIdentChar '_' = true from by decide]
          simpa using ih true
      · simp only [List.filter_cons]
        cases hw : isWordChar c.toLower with
        | true =>
            rw [if_pos rfl]
            simp only [List.all_cons, toLower_wordChar c hw]
            simpa using ih false
        | false =>
            rw [if_neg (by simp)]
            exact ih false

/-- Step 1 of the normaliser yields only `[a-z0-9_]` characters. -/
lemma headerClean_good (s : String) :
    (headerClean s).data.all goodIdentChar = true := by
  unfold headerClean
  exact collapse_filter_good (pyStripList s.data) false

/-- `Nat.digitChar` of a value below ten is a digit character. -/
lemma digitChar_isDigit (d : Nat) (h : d < 10) : (Nat.digitChar d).isDigit = true := by
  interval_cases d <;> decide

/-- Every character `Nat.toDigitsCore` emits over an all-digit accumulator
is a digit. -/
lemma toDigitsCore_digits (f : Nat) : ∀ (n : Nat) (acc : List Char),
    (∀ c ∈ acc, c.isDigit = true) →
    ∀ c ∈ Nat.toDigitsCore 10 f n acc, c.isDigit = true := by
  induction f with
  | zero =>
      intro n acc hacc c hc
      exact hacc c hc
  | succ f ih =>
      intro n acc hacc c hc
      simp only [Nat.toDigitsCore] at hc
      have hd : (Nat.digitChar (n % 10)).isDigit = true :=
        digitChar_isDigit _ (Nat.mod_lt _ (by omega))
      have hacc2 : ∀ x ∈ Nat.digitChar (n % 10) :: acc, x.isDigit = true := by
        intro x hx
        rcases List.mem_cons.mp hx with h | h
        · rw [h]; exact hd
        · exact hacc x h
      split at hc
      · exact hacc2 c hc
      · exact ih (n / 10) _ hacc2 c hc

/-- Every character of the decimal representation of a natural number is a
digit. -/
lemma natRepr_digits (n : Nat) : ∀ c ∈ (toString n).data, c.isDigit = true := by
  intro c hc
  have : (toString n).data = Nat.toDigitsCore 10 (n + 1) n [] := rfl
  rw [this] at hc
  exact toDigitsCore_digits (n + 1) n [] (by simp) c hc

/-- Digits are in `[a-z0-9_]`. -/
lemma digit_good (c : Char) (h : c.isDigit = true) : goodIdentChar c = true := by
  simp only [goodIdentChar, h]
  simp

/-- Step 2 of the normaliser yields nonempty all-good names. -/
lemma unnamedFill_good : ∀ (k : Nat) (l : List String),
    (∀ v ∈ l, v.data.all goodIdentChar = true) →
    ∀ v ∈ unnamedFill k l, v ≠ "" ∧ v.data.all goodIdentChar = true := by
  intro k l
  induction l generalizing k with
  | nil => intro _ v hv; simp [unnamedFill] at hv
  | cons w rest ih =>
      intro hall v hv
      simp only [unnamedFill] at hv
      split at hv
      · rcases List.mem_cons.mp hv with h | h
        · subst h
          constructor
          · intro hcon
            have := congrArg String.data hcon
            rw [strdata_append] at this
            simp at this
          · rw [strdata_append, List.all_append, Bool.and_eq_true]
            constructor
            · decide
            · rw [List.all_eq_true]
              intro c hc
              exact digit_good c (natRepr_digits k c hc)
        · exact ih (k + 1) (fun x hx => hall x (List.mem_cons_of_mem _ hx)) v h
      · rcases List.mem_cons.mp hv with h | h
        · subst h
          rename_i hnot
          push_neg at hnot
          exact ⟨hnot.1, hall v (List.mem_cons_self _ _)⟩
        · exact ih k (fun x hx => hall x (List.mem_cons_of_mem _ hx)) v h

/-- The combined shape property: a regex-matching identifier within the
length cap, or a truncated identifier. -/
def identShapeP (h : String) : Prop :=
  (matchesSqlIdent h = true ∧ h.length ≤ 255) ∨ isTruncatedIdent h = true

/-- A first-position character is also a body character. -/
lemma goodFirst_good (c : Char) (h : goodFirstChar c = true) :
    goodIdentChar c = true := by
  simp only [goodFirstChar, Bool.or_eq_true] at h
  simp only [goodIdentChar, Bool.or_eq_true]
  tauto

/-- An identifier shape is preserved by appending body characters. -/
lemma matchesChars_append_good (l t : List Char)
    (h : matchesSqlIdentChars l = true) (ht : t.all goodIdentChar = true) :
    matchesSqlIdentChars (l ++ t) = true := by
  cases l with
  | nil => simp [matchesSqlIdentChars] at h
  | cons c rest =>
      simp only [matchesSqlIdentChars, Bool.and_eq_true] at h
      rw [List.cons_append]
      show (goodFirstChar c && (rest ++ t).all goodIdentChar) = true
      rw [Bool.and_eq_true, List.all_append, Bool.and_eq_true]
      exact ⟨h.1, h.2, ht⟩

/-- A nonempty prefix of an identifier shape keeps the shape. -/
lemma matchesChars_take (l : List Char) (n : Nat) (hn : 0 < n)
    (h : matchesSqlIdentChars l = true) :
    matchesSqlIdentChars (l.take n) = true := by
  cases l with
  | nil => simp [matchesSqlIdentChars] at h
  | cons c rest =>
      cases n with
      | zero => omega
      | succ m =>
          simp only [List.take_succ_cons, matchesSqlIdentChars,
            Bool.and_eq_true, List.all_eq_true] at h ⊢
          exact ⟨h.1, fun x hx => h.2 x (List.mem_of_mem_take hx)⟩

/-- The truncation branch produces a truncated identifier. -/
lemma truncate255_long_shape (w : String) (hlen : w.length > 255)
    (hpre : matchesSqlIdentChars (w.data.take 252) = true) :
    isTruncatedIdent (truncate255 w) = true := by
  unfold truncate255
  rw [if_pos hlen]
  have hd : ((⟨w.data.take 252⟩ ++ "..." : String)).data =
      w.data.take 252 ++ ['.', '.', '.'] := rfl
  have hlentake : (w.data.take 252).length = 252 := by
    rw [List.length_take]
    have : w.data.length = w.length := rfl
    omega
  unfold isTruncatedIdent
  rw [hd]
  have h1 : (⟨w.data.take 252⟩ ++ "..." : String).length = 255 := by
    have he : (⟨w.data.take 252⟩ ++ "..." : String).length =
        (w.data.take 252 ++ ['.', '.', '.']).length := congrArg List.length hd
    rw [he, List.length_append, hlentake]
    rfl
  have key : ∀ (l1 l2 : List Char), l1.length = 252 →
      (l1 ++ l2).take 252 = l1 ∧ (l1 ++ l2).drop 252 = l2 := by
    intro l1 l2 hl
    constructor
    · rw [← hl]
      exact List.take_left l1 l2
    · rw [← hl]
      exact List.drop_left l1 l2
  obtain ⟨h2, h3⟩ := key (w.data.take 252) ['.', '.', '.'] hlentake
  rw [h2, h3, hpre, h1]
  simp

/-- `truncate255` of an identifier-shaped name keeps the shape property. -/
lemma truncate255_shape (w : String) (hw : matchesSqlIdentChars w.data = true) :
    identShapeP (truncate255 w) := by
  by_cases hlen : w.length > 255
  · exact Or.inr (truncate255_long_shape w hlen
      (matchesChars_take _ 252 (by omega) hw))
  · left
    unfold truncate255
    rw [if_neg hlen]
    exact ⟨hw, by omega⟩

/-- Decomposition of a truncated identifier into its three components. -/
lemma truncIdent_elim (h : String) (ht : isTruncatedIdent h = true) :
    h.length = 255 ∧ matchesSqlIdentChars (h.data.take 252) = true ∧
      h.data.drop 252 = ['.', '.', '.'] := by
  unfold isTruncatedIdent at ht
  simp only [Bool.and_eq_true, decide_eq_true_eq] at ht
  tauto

/-- Step 3 of the normaliser maps a nonempty all-`[a-z0-9_]` name to the
identifier shape. -/
lemma sqlSafe_shape (v : String) (hne : v ≠ "")
    (hgood : v.data.all goodIdentChar = true) : identShapeP (sqlSafe v) := by
  cases hd : v.data with
  | nil =>
      exfalso
      apply hne
      have h1 : v = ⟨v.data⟩ := rfl
      rw [hd] at h1
      exact h1
  | cons c rest =>
      have hm1 : matchesSqlIdentChars
          (if c.isDigit then "col_" ++ v else v).data = true := by
        cases hdig : c.isDigit with
        | true =>
            rw [if_pos rfl, strdata_append]
            have hc : ("col_" : String).data = ['c', 'o', 'l', '_'] := rfl
            rw [hc]
            exact matchesChars_append_good _ _ (by decide) hgood
        | false =>
            rw [if_neg (by simp), hd]
            show (goodFirstChar c && rest.all goodIdentChar) = true
            rw [Bool.and_eq_true]
            refine ⟨?_, ?_⟩
            · have hcg : goodIdentChar c = true := by
                rw [List.all_eq_true] at hgood
                exact hgood c (by rw [hd]; exact List.mem_cons_self _ _)
              simp only [goodIdentChar, Bool.or_eq_true] at hcg
              simp only [goodFirstChar, Bool.or_eq_true]
              rcases hcg with (hl | hd2) | he
              · exact Or.inl hl
              · rw [hdig] at hd2
                exact absurd hd2 (by simp)
              · exact Or.inr he
            · rw [hd, List.all_cons, Bool.and_eq_true] at hgood
              exact hgood.2
      have hm2 : ∀ w : String, matchesSqlIdentChars w.data = true →
          matchesSqlIdentChars
            (if w ∈ SQL_RESERVED_WORDS then w ++ "_col" else w).data = true := by
        intro w hw
        split
        · rw [strdata_append]
          exact matchesChars_append_good _ _ hw (by decide)
        · exact hw
      unfold sqlSafe
      rw [hd]
      exact truncate255_shape _ (hm2 _ hm1)

/-- Appending nonempty all-`[a-z0-9_]` text to a shaped identifier and
re-truncating keeps the shape. -/
lemma shape_append_trunc (h : String) (t : List Char) (hsh : identShapeP h)
    (htgood : t.all goodIdentChar = true) (htne : t ≠ []) :
    identShapeP (truncate255 ⟨h.data ++ t⟩) := by
  rcases hsh with ⟨hm, _⟩ | htr
  · exact truncate255_shape _ (matchesChars_append_good _ _ hm htgood)
  · obtain ⟨hlen, hpre, _⟩ := truncIdent_elim h htr
    have hdl : h.data.length = 255 := hlen
    right
    apply truncate255_long_shape
    · show (h.data ++ t).length > 255
      rw [List.length_append, hdl]
      have : 0 < t.length := List.length_pos.mpr htne
      omega
    · show matchesSqlIdentChars ((h.data ++ t).take 252) = true
      rw [List.take_append_eq_append_take,
        show 252 - h.data.length = 0 from by omega, List.take_zero,
        List.append_nil]
      exact hpre

/-- Duplicate resolution preserves the identifier shape of every name. -/
lemma dedupHeaders_shape : ∀ (l : List String) (seen : List (String × Nat))
    (dup : Nat), (∀ v ∈ l, identShapeP v) →
    ∀ h ∈ (dedupHeaders seen dup l).1, identShapeP h := by
  intro l
  induction l with
  | nil =>
      intro seen dup _ h hh
      simp [dedupHeaders] at hh
  | cons w rest ih =>
      intro seen dup hall h hh
      simp only [dedupHeaders] at hh
      cases hsl : seenLookup seen w with
      | some n =>
          rw [hsl] at hh
          obtain ⟨tail, d, hdd⟩ : ∃ tail d,
              dedupHeaders (seenBump seen w) (dup + 1) rest = (tail, d) :=
            ⟨_, _, rfl⟩
          rw [hdd] at hh
          dsimp only at hh
          rcases List.mem_cons.mp hh with h1 | h1
          · subst h1
            have hw : identShapeP w := hall w (List.mem_cons_self _ _)
            have hde : (w ++ "_" ++ toString (n + 1)).data =
                w.data ++ ('_' :: (toString (n + 1)).data) := by
              rw [strdata_append, strdata_append, List.append_assoc]
              rfl
            have hstr : (w ++ "_" ++ toString (n + 1) : String) =
                ⟨w.data ++ ('_' :: (toString (n + 1)).data)⟩ := by
              calc (w ++ "_" ++ toString (n + 1) : String)
                  = ⟨(w ++ "_" ++ toString (n + 1)).data⟩ := rfl
                _ = ⟨w.data ++ ('_' :: (toString (n + 1)).data)⟩ := by rw [hde]
            rw [hstr]
            apply shape_append_trunc w _ hw
            · rw [List.all_cons, Bool.and_eq_true]
              refine ⟨by decide, ?_⟩
              rw [List.all_eq_true]
              intro c hc
              exact digit_good c (natRepr_digits (n + 1) c hc)
            · simp
          · have hm : h ∈ (dedupHeaders (seenBump seen w) (dup + 1) rest).1 := by
              rw [hdd]
              exact h1
            exact ih (seenBump seen w) (dup + 1)
              (fun x hx => hall x (List.mem_cons_of_mem _ hx)) h hm
      | none =>
          rw [hsl] at hh
          obtain ⟨tail, d, hdd⟩ : ∃ tail d,
              dedupHeaders ((w, 1) :: seen) dup rest = (tail, d) :=
            ⟨_, _, rfl⟩
          rw [hdd] at hh
          dsimp only at hh
          rcases List.mem_cons.mp hh with h1 | h1
          · subst h1
            exact hall h (List.mem_cons_self _ _)
          · have hm : h ∈ (dedupHeaders ((w, 1) :: seen) dup rest).1 := by
              rw [hdd]
              exact h1
            exact ih ((w, 1) :: seen) dup
              (fun x hx => hall x (List.mem_cons_of_mem _ hx)) h hm

/-- C2 (amended): every identifier produced by `normalise_headers` has
length at most 255 and either matches `^[a-z_][a-z0-9_]*$` or is a
truncated identifier — 252 characters of that shape followed by the
three-dot ellipsis marker, whose dots fall outside the character class. -/
theorem C2_amended_identifier_shape (hs : List String) (h : String)
    (hmem : h ∈ (normalise_headers hs).1) :
    h.length ≤ 255 ∧ (matchesSqlIdent h = true ∨ isTruncatedIdent h = true) := by
  have hshape : identShapeP h := by
    unfold normalise_headers at hmem
    apply dedupHeaders_shape _ [] 0 _ h hmem
    intro v hv
    rw [List.mem_map] at hv
    obtain ⟨u, hu, rfl⟩ := hv
    have hgoods : ∀ x ∈ hs.map headerClean, x.data.all goodIdentChar = true := by
      intro x hx
      rw [List.mem_map] at hx
      obtain ⟨y, _, rfl⟩ := hx
      exact headerClean_good y
    have hu2 := unnamedFill_good 1 (hs.map headerClean) hgoods u hu
    exact sqlSafe_shape u hu2.1 hu2.2
  rcases hshape with ⟨hm, hle⟩ | htr
  · exact ⟨hle, Or.inl hm⟩
  · exact ⟨(truncIdent_elim h htr).1.le, Or.inr htr⟩

/-- Witness for C2: the header list `["a"]` produces the identifier `"a"`,
which satisfies the amended shape property. -/
theorem C2_amended_identifier_shape_witness :
    ("a" ∈ (normalise_headers ["a"]).1) ∧
    (("a" : String).length ≤ 255 ∧
      (matchesSqlIdent "a" = true ∨ isTruncatedIdent "a" = true)) :=
  ⟨by decide, C2_amended_identifier_shape ["a"] "a" (by decide)⟩
